import Mathlib

/-!
Verification development for the DSS (derandomized shallow shadows) package.

The numpy tensors of the source are embedded as flat row-major arrays of
exact fractions (every tensor entry produced by the source is a rational
number); each `np.einsum` call site is translated to an explicit summation
with the same index arithmetic, and `np.reshape` is modelled as the fallible
operation it is in numpy (it raises when the total size changes).
Fractions are represented by the kernel-computable type `Fr` below, with the
semantics given by `Fr.toRat : Fr → ℚ`.  The `math.exp`-based cost functions
are modelled over `ℝ`.  The two memoization dictionaries of the source cache
calls to the pure weight functions and never change any computed value; they
are elided here and the cached computations are inlined.
-/

set_option maxRecDepth 1000000
set_option maxHeartbeats 1000000

namespace DSS

instance instDecEqExcept {e a : Type} [DecidableEq e] [DecidableEq a] :
    DecidableEq (Except e a)
  | .ok x, .ok y =>
    if h : x = y then .isTrue (by rw [h]) else .isFalse (by intro hc; cases hc; exact h rfl)
  | .ok _, .error _ => .isFalse (by intro hc; cases hc)
  | .error _, .ok _ => .isFalse (by intro hc; cases hc)
  | .error x, .error y =>
    if h : x = y then .isTrue (by rw [h]) else .isFalse (by intro hc; cases hc; exact h rfl)

-- ------------------------- exact fractions ------------------------- --

/-- An exact fraction `num / (dp + 1)`, kept in lowest terms by the arithmetic
below.  The denominator is stored off by one so that it is positive by
construction. -/
structure Fr where
  num : ℤ
  dp : ℕ
deriving DecidableEq

/-- The (always positive) denominator. -/
def Fr.den (a : Fr) : ℕ := a.dp + 1

/-- The fraction `n / d` (intended for `1 ≤ d`). -/
def fr (n : ℤ) (d : ℕ) : Fr := ⟨n, d - 1⟩

/-- Reduce `n / d` to lowest terms. -/
def Fr.norm (n : ℤ) (d : ℕ) : Fr :=
  let g := n.natAbs.gcd d
  if g = 0 then ⟨0, 0⟩ else ⟨Int.ediv n g, d / g - 1⟩

instance : Zero Fr := ⟨⟨0, 0⟩⟩

instance : One Fr := ⟨⟨1, 0⟩⟩

instance : Inhabited Fr := ⟨0⟩

protected def Fr.add (a b : Fr) : Fr :=
  Fr.norm (a.num * b.den + b.num * a.den) (a.den * b.den)

protected def Fr.sub (a b : Fr) : Fr :=
  Fr.norm (a.num * b.den - b.num * a.den) (a.den * b.den)

protected def Fr.mul (a b : Fr) : Fr := Fr.norm (a.num * b.num) (a.den * b.den)

instance : Add Fr := ⟨Fr.add⟩

instance : Sub Fr := ⟨Fr.sub⟩

instance : Mul Fr := ⟨Fr.mul⟩

/-- The rational number denoted by a fraction. -/
def Fr.toRat (a : Fr) : ℚ := (a.num : ℚ) / (a.den : ℚ)

theorem Fr.den_ne_zero (a : Fr) : a.den ≠ 0 := Nat.succ_ne_zero a.dp

theorem Fr.toRat_norm (n : ℤ) (d : ℕ) (hd : d ≠ 0) :
    Fr.toRat (Fr.norm n d) = (n : ℚ) / (d : ℚ) := by
  unfold Fr.norm
  set g := n.natAbs.gcd d with hgdef
  have hg : g ≠ 0 := fun h => hd (Nat.eq_zero_of_gcd_eq_zero_right h)
  rw [if_neg hg]
  have hgd : g ∣ d := Nat.gcd_dvd_right _ _
  have hgn : (g : ℤ) ∣ n :=
    dvd_trans (Int.natCast_dvd_natCast.mpr (Nat.gcd_dvd_left _ _)) (Int.natAbs_dvd.mpr dvd_rfl)
  have hdg1 : 1 ≤ d / g := (Nat.one_le_div_iff (Nat.pos_of_ne_zero hg)).mpr
    (Nat.le_of_dvd (Nat.pos_of_ne_zero hd) hgd)
  have h1Z : Int.ediv n (g : ℤ) * (g : ℤ) = n := Int.ediv_mul_cancel hgn
  have h1 : ((Int.ediv n (g : ℤ) : ℤ) : ℚ) * ((g : ℕ) : ℚ) = (n : ℚ) := by
    rw [show ((g : ℕ) : ℚ) = (((g : ℕ) : ℤ) : ℚ) by push_cast; ring, ← Int.cast_mul, h1Z]
  have h2 : ((d / g : ℕ) : ℚ) * (g : ℚ) = (d : ℚ) := by
    rw [← Nat.cast_mul, Nat.div_mul_cancel hgd]
  have hdQ : (d : ℚ) ≠ 0 := Nat.cast_ne_zero.mpr hd
  have hdgQ : ((d / g : ℕ) : ℚ) ≠ 0 := by
    intro h
    rw [h, zero_mul] at h2
    exact hdQ h2.symm
  show Fr.toRat ⟨Int.ediv n g, d / g - 1⟩ = (n : ℚ) / (d : ℚ)
  unfold Fr.toRat Fr.den
  rw [show (d / g - 1) + 1 = d / g from Nat.sub_add_cancel hdg1]
  rw [div_eq_div_iff hdgQ hdQ]
  calc (Int.ediv n g : ℚ) * (d : ℚ)
      = (Int.ediv n g : ℚ) * (((d / g : ℕ) : ℚ) * (g : ℚ)) := by rw [h2]
    _ = ((Int.ediv n g : ℚ) * (g : ℚ)) * ((d / g : ℕ) : ℚ) := by ring
    _ = (n : ℚ) * ((d / g : ℕ) : ℚ) := by rw [h1]

theorem Fr.toRat_zero : (0 : Fr).toRat = 0 := by
  show Fr.toRat ⟨0, 0⟩ = 0
  simp [Fr.toRat, Fr.den]

theorem Fr.toRat_one : (1 : Fr).toRat = 1 := by
  show Fr.toRat ⟨1, 0⟩ = 1
  simp [Fr.toRat, Fr.den]

theorem Fr.toRat_add (a b : Fr) : (a + b).toRat = a.toRat + b.toRat := by
  show (Fr.add a b).toRat = a.toRat + b.toRat
  unfold Fr.add
  rw [Fr.toRat_norm _ _ (Nat.mul_ne_zero a.den_ne_zero b.den_ne_zero)]
  unfold Fr.toRat
  have ha : ((a.den : ℕ) : ℚ) ≠ 0 := Nat.cast_ne_zero.mpr a.den_ne_zero
  have hb : ((b.den : ℕ) : ℚ) ≠ 0 := Nat.cast_ne_zero.mpr b.den_ne_zero
  field_simp
  try push_cast
  try ring

theorem Fr.toRat_sub (a b : Fr) : (a - b).toRat = a.toRat - b.toRat := by
  show (Fr.sub a b).toRat = a.toRat - b.toRat
  unfold Fr.sub
  rw [Fr.toRat_norm _ _ (Nat.mul_ne_zero a.den_ne_zero b.den_ne_zero)]
  unfold Fr.toRat
  have ha : ((a.den : ℕ) : ℚ) ≠ 0 := Nat.cast_ne_zero.mpr a.den_ne_zero
  have hb : ((b.den : ℕ) : ℚ) ≠ 0 := Nat.cast_ne_zero.mpr b.den_ne_zero
  field_simp
  try push_cast
  try ring

theorem Fr.toRat_mul (a b : Fr) : (a * b).toRat = a.toRat * b.toRat := by
  show (Fr.mul a b).toRat = a.toRat * b.toRat
  unfold Fr.mul
  rw [Fr.toRat_norm _ _ (Nat.mul_ne_zero a.den_ne_zero b.den_ne_zero)]
  unfold Fr.toRat
  push_cast
  rw [div_mul_div_comm]

theorem fr_toRat (n : ℤ) (d : ℕ) (hd : d ≠ 0) : (fr n d).toRat = (n : ℚ) / (d : ℚ) := by
  unfold fr Fr.toRat Fr.den
  rw [Nat.sub_add_cancel (Nat.one_le_iff_ne_zero.mpr hd)]

/-- Product of a list of fractions (as used for `np.prod`). -/
def frProd : List Fr → Fr
  | [] => 1
  | x :: xs => x * frProd xs

theorem frProd_toRat (l : List Fr) : (frProd l).toRat = (l.map Fr.toRat).prod := by
  induction l with
  | nil => simpa [frProd] using Fr.toRat_one
  | cons x xs ih => rw [frProd, Fr.toRat_mul, ih, List.map_cons, List.prod_cons]

-- ------------------------- flat arrays ------------------------- --

/-- Flat row-major n-dimensional array of fractions, mirroring `np.ndarray`.
`data` is total; only flat indices below `shape.prod` are meaningful. -/
structure NDArr where
  shape : List ℕ
  data : ℕ → Fr

def nd0 : NDArr := ⟨[], fun _ => 0⟩

instance : Inhabited NDArr := ⟨nd0⟩

def NDArr.dim (A : NDArr) (i : ℕ) : ℕ := A.shape.getD i 0

/-- Sum of `f` over `0, …, n-1`. -/
def sumR : ℕ → (ℕ → Fr) → Fr
  | 0, _ => 0
  | n + 1, f => sumR n f + f n

theorem sumR_toRat (n : ℕ) (f : ℕ → Fr) :
    (sumR n f).toRat = (Finset.range n).sum fun i => (f i).toRat := by
  induction n with
  | zero => simpa [sumR] using Fr.toRat_zero
  | succ n ih => rw [sumR, Fr.toRat_add, ih, Finset.sum_range_succ]

theorem sumR_congr {n : ℕ} {f g : ℕ → Fr} (h : ∀ i < n, f i = g i) :
    sumR n f = sumR n g := by
  induction n with
  | zero => rfl
  | succ n ih =>
    rw [sumR, sumR, ih fun i hi => h i (Nat.lt_succ_of_lt hi),
      h n (Nat.lt_succ_self n)]

/-- `np.reshape`: data unchanged, raises when the total size differs. -/
def NDArr.reshape (A : NDArr) (s : List ℕ) : Except String NDArr :=
  if s.prod = A.shape.prod then .ok ⟨s, A.data⟩ else .error "cannot reshape"

/-- Transpose of a 2-d array (`np.transpose`). -/
def NDArr.transpose2 (A : NDArr) : NDArr :=
  ⟨[A.dim 1, A.dim 0], fun m => A.data ((m % A.dim 0) * A.dim 1 + m / A.dim 0)⟩

/-- 2-d matrix product (`np.matmul`). -/
def matmul2 (A B : NDArr) : NDArr :=
  ⟨[A.dim 0, B.dim 1], fun m =>
    sumR (A.dim 1) fun k =>
      A.data ((m / B.dim 1) * A.dim 1 + k) * B.data (k * B.dim 1 + m % B.dim 1)⟩

/-- `np.trace` of a 2-d array. -/
def trace2 (A : NDArr) : Fr :=
  sumR (min (A.dim 0) (A.dim 1)) fun i => A.data (i * A.dim 1 + i)

/-- Build a 2-d array from a list of rows. -/
def mk2 (rows : List (List Fr)) : NDArr :=
  ⟨[rows.length, (rows.headD []).length],
    fun m => (rows.getD (m / (rows.headD []).length) []).getD (m % (rows.headD []).length) 0⟩

-- ------------------------- gates.py ------------------------- --

/-- `identity_gate`: `np.eye(16).reshape(4,4,4,4)`. -/
def identity_gate : NDArr :=
  ⟨[4, 4, 4, 4], fun f => if f / 16 = f % 16 then 1 else 0⟩

/-- `swap_gate`: transpose the last two legs of the identity gate. -/
def swap_gate : NDArr :=
  ⟨[4, 4, 4, 4], fun f =>
    identity_gate.data ((f / 64) * 64 + ((f / 16) % 4) * 16 + (f % 4) * 4 + (f / 4) % 4)⟩

def CNOT_MPO : List (List Fr) :=
  [[1, 0, 0, 0, 0, 0, 0, 0, 0, 0, 0, 0, 0, 0, 0, 0],
   [0, 1, 0, 0, 0, 0, 0, 0, 0, 0, 0, 0, 0, 0, 0, 0],
   [0, 0, 0, 0, 0, 0, 0, 0, 0, 0, 0, 0, 0, 0, 1, 0],
   [0, 0, 0, 0, 0, 0, 0, 0, 0, 0, 0, 0, 0, 0, 0, 1],
   [0, 0, 0, 0, 0, 1, 0, 0, 0, 0, 0, 0, 0, 0, 0, 0],
   [0, 0, 0, 0, 1, 0, 0, 0, 0, 0, 0, 0, 0, 0, 0, 0],
   [0, 0, 0, 0, 0, 0, 0, 0, 0, 0, 0, 1, 0, 0, 0, 0],
   [0, 0, 0, 0, 0, 0, 0, 0, 0, 0, 1, 0, 0, 0, 0, 0],
   [0, 0, 0, 0, 0, 0, 0, 0, 0, 1, 0, 0, 0, 0, 0, 0],
   [0, 0, 0, 0, 0, 0, 0, 0, 1, 0, 0, 0, 0, 0, 0, 0],
   [0, 0, 0, 0, 0, 0, 0, 1, 0, 0, 0, 0, 0, 0, 0, 0],
   [0, 0, 0, 0, 0, 0, 1, 0, 0, 0, 0, 0, 0, 0, 0, 0],
   [0, 0, 0, 0, 0, 0, 0, 0, 0, 0, 0, 0, 1, 0, 0, 0],
   [0, 0, 0, 0, 0, 0, 0, 0, 0, 0, 0, 0, 0, 1, 0, 0],
   [0, 0, 1, 0, 0, 0, 0, 0, 0, 0, 0, 0, 0, 0, 0, 0],
   [0, 0, 0, 1, 0, 0, 0, 0, 0, 0, 0, 0, 0, 0, 0, 0]]

/-- `cnot_gate`: the 16×16 Pauli-basis CNOT matrix reshaped to (4,4,4,4). -/
def cnot_gate : NDArr :=
  ⟨[4, 4, 4, 4], fun f => (CNOT_MPO.getD (f / 16) []).getD (f % 16) 0⟩

/-- `u2_gate`: dominant identity block at (0,0), `2/30` off the (0,0) entry elsewhere. -/
def u2_gate : NDArr :=
  ⟨[4, 4, 4, 4], fun f =>
    if f / 64 = 0 ∧ (f / 16) % 4 = 0 then
      (if (f / 4) % 4 = 0 ∧ f % 4 = 0 then 1 else 0)
    else
      fr 2 30 * (1 - (if (f / 4) % 4 = 0 ∧ f % 4 = 0 then 1 else 0))⟩

def gate1 : NDArr := mk2 [[1, 0, 0, 0], [0, 1, 0, 0], [0, 0, 1, 0], [0, 0, 0, 1]]

def gate2 : NDArr := mk2 [[1, 0, 0, 0], [0, 1, 0, 0], [0, 0, 0, 1], [0, 0, 1, 0]]

def gate3 : NDArr := mk2 [[1, 0, 0, 0], [0, 0, 1, 0], [0, 1, 0, 0], [0, 0, 0, 1]]

def gate4 : NDArr := mk2 [[1, 0, 0, 0], [0, 0, 0, 1], [0, 1, 0, 0], [0, 0, 1, 0]]

def gate5 : NDArr := mk2 [[1, 0, 0, 0], [0, 0, 1, 0], [0, 0, 0, 1], [0, 1, 0, 0]]

def gate6 : NDArr := mk2 [[1, 0, 0, 0], [0, 0, 0, 1], [0, 0, 1, 0], [0, 1, 0, 0]]

def random_singleq_gate : NDArr :=
  mk2 [[1, 0, 0, 0],
       [0, fr 1 3, fr 1 3, fr 1 3],
       [0, fr 1 3, fr 1 3, fr 1 3],
       [0, fr 1 3, fr 1 3, fr 1 3]]

-- ------------------------- circuit.py ------------------------- --

/-- `initial_state`: per qubit, `[0,0,0,1]` on a non-identity site, `[1,0,0,0]` on identity. -/
def initial_state (mask : List Bool) (N : ℕ) : NDArr :=
  ⟨[mask.length, 4], fun f =>
    if mask.getD (f / 4) false then (if f % 4 = 3 then 1 else 0)
    else (if f % 4 = 0 then 1 else 0)⟩

/-- `initial_state_sig`: per qubit, `[0,1]` on a non-identity site, `[1,0]` on identity. -/
def initial_state_sig (mask : List Bool) (N : ℕ) : NDArr :=
  ⟨[mask.length, 2], fun f =>
    if mask.getD (f / 2) false then (if f % 2 = 1 then 1 else 0)
    else (if f % 2 = 0 then 1 else 0)⟩

/-- `local_twirl`: `einsum('ia,jb,ck,dl,abcd->ijkl', tw, tw, tw, tw, g)` with
`tw = random_singleq_gate`. -/
def local_twirl (g : NDArr) : NDArr :=
  ⟨[4, 4, 4, 4], fun f =>
    let i := f / 64; let j := (f / 16) % 4; let k := (f / 4) % 4; let l := f % 4
    sumR 4 fun a => sumR 4 fun b => sumR 4 fun c => sumR 4 fun d =>
      random_singleq_gate.data (i * 4 + a) * random_singleq_gate.data (j * 4 + b) *
      random_singleq_gate.data (c * 4 + k) * random_singleq_gate.data (d * 4 + l) *
      g.data (((a * 4 + b) * 4 + c) * 4 + d)⟩

/-- `local_twirl_sig`: twirl, collapse legs 3 and 4 to identity-vs-rest, keep the
first two values of legs 1 and 2. -/
def local_twirl_sig (g : NDArr) : NDArr :=
  let tw := local_twirl g
  let p2 : ℕ → ℕ → ℕ → ℕ → Fr := fun i j kk l =>
    if kk = 0 then tw.data (((i * 4 + j) * 4 + 0) * 4 + l)
    else sumR 3 fun t => tw.data (((i * 4 + j) * 4 + (t + 1)) * 4 + l)
  ⟨[2, 2, 2, 2], fun f =>
    let i := f / 8; let j := (f / 4) % 2; let kk := (f / 2) % 2; let ll := f % 2
    if ll = 0 then p2 i j kk 0 else sumR 3 fun t => p2 i j kk (t + 1)⟩

/-- `make_twrld_sig_twoq_set`: signature-reduced versions of the four two-qubit gates
(the source twirls each gate and then `local_twirl_sig` twirls it again). -/
def make_twrld_sig_twoq_set : List NDArr :=
  [identity_gate, cnot_gate, swap_gate, u2_gate].map fun g => local_twirl_sig (local_twirl g)

-- ------------------------- tensor_contractions.py ------------------------- --

/-- `pair_input_states`: group the qubit-state rows into brickwork pairs. -/
def pair_input_states (state : NDArr) (N : ℕ) (depth_parity : ℕ) : List (NDArr × NDArr) :=
  let b := state.dim 1
  let offset := 1 - depth_parity
  let row : ℕ → NDArr := fun q => ⟨[b], fun i => state.data (q * b + i)⟩
  (List.range (N / 2)).map fun i =>
    (row ((2 * i + offset) % N), row ((2 * i + 1 + offset) % N))

/-- `einsum('a,b,abkl->kl', s1, s2, gate)`. -/
def einsum_init (s1 s2 g : NDArr) : NDArr :=
  ⟨[g.dim 2, g.dim 3], fun m =>
    let k := m / g.dim 3; let l := m % g.dim 3
    sumR (s1.dim 0) fun a => sumR (s2.dim 0) fun b =>
      s1.data a * s2.data b * g.data (((a * g.dim 1 + b) * g.dim 2 + k) * g.dim 3 + l)⟩

/-- `apply_initial_gates`: contract paired states with the first gate layer,
transposing on even depth parity. -/
def apply_initial_gates (paired : List (NDArr × NDArr)) (layer : List NDArr)
    (depth_parity : ℕ) : List NDArr :=
  let contracted := List.zipWith (fun p g => einsum_init p.1 p.2 g) paired layer
  if depth_parity = 0 then contracted.map NDArr.transpose2 else contracted

/-- `reshape_for_temporal_contraction`. -/
def reshape_for_temporal_contraction (mats : List NDArr) (bond_dim : ℕ)
    (depth_parity : ℕ) : Except String (List NDArr) :=
  if depth_parity = 0 then mats.mapM (fun m => m.reshape [1, bond_dim, bond_dim])
  else mats.mapM (fun m => m.reshape [bond_dim, 1, bond_dim])

/-- `get_measurement_tensor`: `[1,0,0,1]` for bond dimension 4, `[1,1/3]` for 2,
otherwise the unsupported-bond-dimension error. -/
def get_measurement_tensor (bond_dim : ℕ) : Except String (List Fr) :=
  if bond_dim = 4 then .ok [1, 0, 0, 1]
  else if bond_dim = 2 then .ok [1, fr 1 3]
  else .error "Unsupported bond dimension factor"

/-- `einsum('ijk,akcd->iacjd', C, g)` (the per-pair slice of `'sijk,sakcd->siacjd'`). -/
def einsum_mid0 (C g : NDArr) : NDArr :=
  let I := C.dim 0; let J := C.dim 1; let K := C.dim 2
  ⟨[I, g.dim 0, g.dim 2, J, g.dim 3], fun m =>
    let d := m % g.dim 3
    let j := (m / g.dim 3) % J
    let c := (m / g.dim 3 / J) % g.dim 2
    let a := (m / g.dim 3 / J / g.dim 2) % g.dim 0
    let i := m / g.dim 3 / J / g.dim 2 / g.dim 0
    sumR K fun k =>
      C.data ((i * J + j) * K + k) *
      g.data (((a * g.dim 1 + k) * g.dim 2 + c) * g.dim 3 + d)⟩

/-- `einsum('ijk,kbcd->ijbdc', C, g)` (the per-pair slice of `'sijk,skbcd->sijbdc'`). -/
def einsum_mid1 (C g : NDArr) : NDArr :=
  let I := C.dim 0; let J := C.dim 1; let K := C.dim 2
  ⟨[I, J, g.dim 1, g.dim 3, g.dim 2], fun m =>
    let c := m % g.dim 2
    let d := (m / g.dim 2) % g.dim 3
    let bb := (m / g.dim 2 / g.dim 3) % g.dim 1
    let j := (m / g.dim 2 / g.dim 3 / g.dim 1) % J
    let i := m / g.dim 2 / g.dim 3 / g.dim 1 / J
    sumR K fun k =>
      C.data ((i * J + j) * K + k) *
      g.data (((k * g.dim 1 + bb) * g.dim 2 + c) * g.dim 3 + d)⟩

/-- One iteration of the `apply_middle_layers` loop. -/
def apply_middle_step (chain : List NDArr) (layer : List NDArr) (parity bond : ℕ) :
    Except String (List NDArr) :=
  let h := chain.headD nd0
  let I := h.dim 0; let J := h.dim 1
  if parity = 0 then
    (List.zipWith einsum_mid0 chain layer).mapM
      (fun t => t.reshape [I * bond ^ 2, J, bond])
  else if parity = 1 then
    (List.zipWith einsum_mid1 chain layer).mapM
      (fun t => t.reshape [I, J * bond ^ 2, bond])
  else .error "Invalid layer parity"

/-- `apply_middle_layers`: iterate the internal layers `depth-2, …, 1`. -/
def apply_middle_layers (chain : List NDArr) (gate_config : List (List NDArr))
    (bond depth : ℕ) : Except String (List NDArr) :=
  (List.range' 1 (depth - 2)).reverse.foldlM
    (fun ch d => apply_middle_step ch (gate_config.getD d []) (d % 2) bond) chain

/-- `einsum('k,l,ijkl->ij', meas, meas, g)`. -/
def einsum_meas (meas : List Fr) (g : NDArr) : NDArr :=
  ⟨[g.dim 0, g.dim 1], fun m =>
    let i := m / g.dim 1; let j := m % g.dim 1
    sumR (g.dim 2) fun k => sumR (g.dim 3) fun l =>
      meas.getD k 0 * meas.getD l 0 * g.data (((i * g.dim 1 + j) * g.dim 2 + k) * g.dim 3 + l)⟩

/-- `einsum('ijk,ak->iaj', C, d)` (the per-pair slice of `'sijk,sak->siaj'`). -/
def einsum_fin (C d : NDArr) : NDArr :=
  let I := C.dim 0; let J := C.dim 1; let K := C.dim 2
  ⟨[I, d.dim 0, J], fun m =>
    let j := m % J
    let a := (m / J) % d.dim 0
    let i := m / J / d.dim 0
    sumR K fun k => C.data ((i * J + j) * K + k) * d.data (a * d.dim 1 + k)⟩

/-- `apply_final_layer`: contract the measurement-side layer with the measurement
tensor on both open legs and absorb it into the chain. -/
def apply_final_layer (chain : List NDArr) (final_gates : List NDArr) (meas : List Fr)
    (bond : ℕ) : Except String (List NDArr) :=
  let dressed := final_gates.map (einsum_meas meas)
  let h := chain.headD nd0
  let I := h.dim 0; let J := h.dim 1
  (List.zipWith einsum_fin chain dressed).mapM (fun t => t.reshape [I * bond, J])

/-- `get_two_qubit_gate_dict` (total model; the source dict raises on keys
outside 0–3, which no caller and no claim exercises). -/
def get_two_qubit_gate_dict (g : ℕ) : NDArr :=
  match g with
  | 0 => identity_gate
  | 1 => cnot_gate
  | 2 => swap_gate
  | _ => u2_gate

/-- `get_single_qubit_gate_dict` (total model, same remark). -/
def get_single_qubit_gate_dict (g : ℕ) : NDArr :=
  match g with
  | 0 => random_singleq_gate
  | 1 => gate1
  | 2 => gate2
  | 3 => gate3
  | 4 => gate4
  | 5 => gate5
  | _ => gate6

/-- `np.roll(layer, -k)` on a list. -/
def rollL (k : ℕ) (layer : List ℕ) : List ℕ :=
  (List.range layer.length).map fun j => layer.getD ((j + k) % layer.length) 0

/-- `reorder_single_qubit_config`: flip the layers and roll each layer by a
parity-dependent amount, with the boundary fix on the last flipped layer. -/
def reorder_single_qubit_config (s_config : List (List ℕ)) : List (List ℕ) :=
  let last_index := s_config.length - 1
  let flipped := s_config.reverse
  (List.range flipped.length).map fun i =>
    rollL ((i + (if i = last_index then 1 else 0)) % 2) (flipped.getD i [])

/-- `einsum('ak,bl,ijab->ijkl', s1, s2, g)`. -/
def einsum_dress_in (s1 s2 g : NDArr) : NDArr :=
  ⟨[g.dim 0, g.dim 1, s1.dim 1, s2.dim 1], fun f =>
    let l := f % s2.dim 1
    let k := (f / s2.dim 1) % s1.dim 1
    let j := (f / s2.dim 1 / s1.dim 1) % g.dim 1
    let i := f / s2.dim 1 / s1.dim 1 / g.dim 1
    sumR (g.dim 2) fun a => sumR (g.dim 3) fun b =>
      s1.data (a * s1.dim 1 + k) * s2.data (b * s2.dim 1 + l) *
      g.data (((i * g.dim 1 + j) * g.dim 2 + a) * g.dim 3 + b)⟩

/-- `einsum('ia,jb,abkl->ijkl', s1, s2, g)`. -/
def einsum_dress_out (s1 s2 g : NDArr) : NDArr :=
  ⟨[s1.dim 0, s2.dim 0, g.dim 2, g.dim 3], fun f =>
    let l := f % g.dim 3
    let k := (f / g.dim 3) % g.dim 2
    let j := (f / g.dim 3 / g.dim 2) % s2.dim 0
    let i := f / g.dim 3 / g.dim 2 / s2.dim 0
    sumR (g.dim 0) fun a => sumR (g.dim 1) fun b =>
      s1.data (i * s1.dim 1 + a) * s2.data (j * s2.dim 1 + b) *
      g.data (((a * g.dim 1 + b) * g.dim 2 + k) * g.dim 3 + l)⟩

/-- `dress_twoq_gates`: absorb the single-qubit gate tensors into their adjacent
two-qubit gate tensors, with the opposite leg convention on the outermost layer. -/
def dress_twoq_gates (gate_config : List (List ℕ)) (single_qubit_config : List (List ℕ)) :
    List (List NDArr) :=
  let canonical := reorder_single_qubit_config single_qubit_config
  let single_gates_full := canonical.map (List.map get_single_qubit_gate_dict)
  let twoq_gates_full := gate_config.map (List.map get_two_qubit_gate_dict)
  let dressed := List.zipWith
    (fun s_layer d_layer => (List.range d_layer.length).map fun i =>
      einsum_dress_in (s_layer.getD (2 * i) nd0) (s_layer.getD (2 * i + 1) nd0)
        (d_layer.getD i nd0))
    single_gates_full.dropLast twoq_gates_full
  let last_s_layer := single_gates_full.getLastD []
  let last_dressed_layer := dressed.getLastD []
  dressed.dropLast ++
    [(List.range last_dressed_layer.length).map fun i =>
      einsum_dress_out (last_s_layer.getD (2 * i) nd0) (last_s_layer.getD (2 * i + 1) nd0)
        (last_dressed_layer.getD i nd0)]

/-- Closing contraction of the `depth == 1` branch:
`einsum('a,b,ab->', meas, meas, M)` for a single pair. -/
def close_pair (meas : List Fr) (M : NDArr) : Fr :=
  sumR (M.dim 0) fun a => sumR (M.dim 1) fun b =>
    meas.getD a 0 * meas.getD b 0 * M.data (a * M.dim 1 + b)

/-- `dressed_gates_contract`: contract the brickwork tensor network of a measurement
circuit against the boundary encoding of one observable, giving its Pauli weight. -/
def dressed_gates_contract (N depth : ℕ) (state : NDArr)
    (gate_config_full : List (List NDArr)) (bond_dim_factor : ℕ) : Except String Fr := do
  let depth_parity := depth % 2
  let paired := pair_input_states state N depth_parity
  let first_layer := gate_config_full.getLastD []
  let chain1 := apply_initial_gates paired first_layer depth_parity
  let chain2 ← reshape_for_temporal_contraction chain1 bond_dim_factor depth_parity
  let meas ← get_measurement_tensor bond_dim_factor
  if depth = 1 then do
    let mats ← chain2.mapM (fun m => m.reshape [bond_dim_factor, bond_dim_factor])
    return frProd (mats.map (close_pair meas))
  else do
    let chain3 ← apply_middle_layers chain2 gate_config_full bond_dim_factor depth
    let chain4 ← apply_final_layer chain3 (gate_config_full.headD []) meas bond_dim_factor
    match chain4 with
    | [] => .error "reduce of empty sequence"
    | h :: t => return trace2 (t.foldl matmul2 h)

-- ------------------------- cost.py: weight oracle ------------------------- --

/-- The module-level `twsig_id, twsig_cx, twsig_sw, twsig_u2` bindings. -/
def twsig_id : NDArr := make_twrld_sig_twoq_set.getD 0 nd0

def twsig_cx : NDArr := make_twrld_sig_twoq_set.getD 1 nd0

def twsig_sw : NDArr := make_twrld_sig_twoq_set.getD 2 nd0

def twsig_u2 : NDArr := make_twrld_sig_twoq_set.getD 3 nd0

/-- The `twrld_sig_twoq_dict` mapping of `calculate_weight_structure`
(total model; the source dict raises on keys outside 0–3). -/
def twrld_sig_twoq_dict (g : ℕ) : NDArr :=
  match g with
  | 0 => twsig_id
  | 1 => twsig_cx
  | 2 => twsig_sw
  | _ => twsig_u2

/-- `calculate_weight_structure`: structure-only Pauli weight of one mask, with all
single-qubit gates treated as random (signature-reduced gates, bond factor 2). -/
def calculate_weight_structure (N : ℕ) (mask : List Bool) (depth : ℕ)
    (gate_config : List (List ℕ)) : Except String Fr :=
  let gate_config_full := gate_config.map (List.map twrld_sig_twoq_dict)
  dressed_gates_contract N depth (initial_state_sig mask N) gate_config_full 2

/-- The boundary encoding `[[i == p for i in range(4)] for p in pauli_mask]`. -/
def pauli_state (pauli_mask : List ℕ) : NDArr :=
  ⟨[pauli_mask.length, 4], fun f => if f % 4 = pauli_mask.getD (f / 4) 0 then 1 else 0⟩

/-- `calculate_weight_single_qubit`: full Pauli weight of one observable under a
fully specified circuit (dressed gates, bond factor 4).  The
`single_qubit_config.reshape((depth+1, N))` of the source raises unless the flat
configuration has exactly `(depth+1)*N` entries. -/
def calculate_weight_single_qubit (N : ℕ) (pauli_mask : List ℕ)
    (single_qubit_config : List ℕ) (gate_config : List (List ℕ)) : Except String Fr :=
  let depth := gate_config.length
  if single_qubit_config.length = (depth + 1) * N then
    let sq : List (List ℕ) :=
      (List.range (depth + 1)).map fun r =>
        (List.range N).map fun c => single_qubit_config.getD (r * N + c) 0
    let dressed := dress_twoq_gates gate_config sq
    dressed_gates_contract N depth (pauli_state pauli_mask) dressed 4
  else .error "cannot reshape"

/-- `weight_of_all_Paulis`: the full weight of every observable in the set. -/
def weight_of_all_Paulis (N : ℕ) (single_qubit_config : List ℕ)
    (gate_config : List (List ℕ)) (pauli_strings_to_learn : List (List ℕ)) :
    Except String (List Fr) :=
  pauli_strings_to_learn.mapM fun pm =>
    calculate_weight_single_qubit N pm single_qubit_config gate_config

-- ------------------------- cost.py: cost functions ------------------------- --

/-- One observable's contribution being folded into the running cost
(the loop body shared by both cost functions). -/
noncomputable def cost_loop_body (eta : ℝ) (total_measurements : ℤ)
    (num_of_measurements_so_far : ℕ) (config_weights random_config_weights : List Fr)
    (count_hits weight : List ℚ) (num_of_measurements_per_observable : ℕ)
    (cost : ℝ) (l : ℕ) : ℝ :=
  if count_hits.getD l 0 ≥
      (⌊weight.getD l 0 * (num_of_measurements_per_observable : ℚ)⌋ : ℚ) then cost
  else
    let nu : ℝ := 1 - Real.exp (-eta / 2)
    let cost_l_fixed : ℝ := Real.exp ((-eta / 2) * ((count_hits.getD l 0 : ℚ) : ℝ))
    let cost_l_partial : ℝ := 1 - nu * (((config_weights.getD l 0).toRat : ℚ) : ℝ)
    let cost_l_randomized : ℝ :=
      (1 - nu * (((random_config_weights.getD l 0).toRat : ℚ) : ℝ)) ^
        (total_measurements - (num_of_measurements_so_far : ℤ) - 1)
    cost + ((weight.getD l 0 : ℚ) : ℝ) * (cost_l_fixed * cost_l_partial * cost_l_randomized)

/-- `confidence_cost_function_structure`: confidence-bound cost of a candidate
two-qubit structure, all single-qubit gates still random. -/
noncomputable def confidence_cost_function_structure (N depth : ℕ) (eta : ℝ)
    (total_measurements : ℤ) (num_of_measurements_so_far : ℕ)
    (structure_config : List (List ℕ)) (pauli_masks : List (List Bool))
    (count_hits : List ℚ) (weight : List ℚ)
    (num_of_measurements_per_observable : ℕ) : Except String ℝ := do
  let random_config := List.replicate depth (List.replicate (N / 2) 3)
  let random_config_weights ← pauli_masks.mapM fun mk =>
    calculate_weight_structure N mk depth random_config
  let structure_config_weights ← pauli_masks.mapM fun mk =>
    calculate_weight_structure N mk depth structure_config
  return (List.range pauli_masks.length).foldl
    (cost_loop_body eta total_measurements num_of_measurements_so_far
      structure_config_weights random_config_weights count_hits weight
      num_of_measurements_per_observable) 0

/-- `confidence_cost_function_single_qubit`: confidence-bound cost of a candidate
single-qubit column on a fixed two-qubit structure. -/
noncomputable def confidence_cost_function_single_qubit (N depth : ℕ) (eta : ℝ)
    (total_measurements : ℤ) (num_of_measurements_so_far : ℕ) (column_test : List ℕ)
    (gate_config : List (List ℕ)) (pauli_strings_to_learn : List (List ℕ))
    (pauli_masks : List (List Bool)) (count_hits : List ℚ) (weight : List ℚ)
    (num_of_measurements_per_observable : ℕ) : Except String ℝ := do
  let random_config := List.replicate depth (List.replicate (N / 2) 3)
  let random_config_weights ← pauli_masks.mapM fun mk =>
    calculate_weight_structure N mk depth random_config
  let fully_fixed_config_weights ← (List.range pauli_masks.length).mapM fun l =>
    calculate_weight_single_qubit N (pauli_strings_to_learn.getD l []) column_test gate_config
  return (List.range pauli_masks.length).foldl
    (cost_loop_body eta total_measurements num_of_measurements_so_far
      fully_fixed_config_weights random_config_weights count_hits weight
      num_of_measurements_per_observable) 0

-- ------------------------- derandomization.py ------------------------- --

/-- `DSSConfig` (config.py): the session state of one derandomization run. -/
structure DSSConfig where
  N : ℕ
  depth : ℕ
  eta : ℝ
  max_num_measurements : ℤ
  measurements_per_observable : ℕ
  pauli_strings_to_learn : List (List ℕ)
  pauli_masks : List (List Bool)
  weights : List ℚ

/-- `best_config[l][g] = v` on a nested list. -/
def set2 (c : List (List ℕ)) (l g v : ℕ) : List (List ℕ) :=
  c.set l ((c.getD l []).set g v)

/-- The inner loop of `structure_derandomization` for one `(layer, pair-slot)` cell:
preset the cell to 0, then try the three gates, committing on strict improvement
of the running best cost. -/
noncomputable def structure_cell_step (dss_data : DSSConfig) (m : ℕ)
    (count_hits : List ℚ) (st : List (List ℕ) × ℝ) (l g : ℕ) :
    Except String (List (List ℕ) × ℝ) :=
  [0, 1, 2].foldlM
    (fun (bc : List (List ℕ) × ℝ) gate => do
      let this_config := set2 bc.1 l g gate
      let this_cost ← confidence_cost_function_structure dss_data.N dss_data.depth
        dss_data.eta dss_data.max_num_measurements m this_config dss_data.pauli_masks
        count_hits dss_data.weights dss_data.measurements_per_observable
      return if this_cost < bc.2 then (this_config, this_cost) else bc)
    (set2 st.1 l g 0, st.2)

/-- `structure_derandomization`: greedy pass over all two-qubit cells starting from
the all-sentinel configuration with running best cost `100000`. -/
noncomputable def structure_derandomization (dss_data : DSSConfig) (m : ℕ)
    (count_hits : List ℚ) : Except String (List (List ℕ)) := do
  let init := List.replicate dss_data.depth (List.replicate (dss_data.N / 2) 3)
  let res ← (List.range dss_data.depth).foldlM
    (fun st l => (List.range (dss_data.N / 2)).foldlM
      (fun st' g => structure_cell_step dss_data m count_hits st' l g) st)
    (init, (100000 : ℝ))
  return res.1

/-- The inner loop of `single_qubit_derandomization` for one slot: preset the slot
to 1 ("always at least replace random with identity"), then try symbols 1–6. -/
noncomputable def single_qubit_slot_step (dss_data : DSSConfig) (m : ℕ)
    (best_two_qubit_gates : List (List ℕ)) (count_hits : List ℚ)
    (st : List ℕ × ℝ) (single_qubit_box : ℕ) : Except String (List ℕ × ℝ) :=
  [1, 2, 3, 4, 5, 6].foldlM
    (fun (bc : List ℕ × ℝ) gate_choice => do
      let test_one_gates := bc.1.set single_qubit_box gate_choice
      let cost_test ← confidence_cost_function_single_qubit dss_data.N dss_data.depth
        dss_data.eta dss_data.max_num_measurements m test_one_gates best_two_qubit_gates
        dss_data.pauli_strings_to_learn dss_data.pauli_masks count_hits dss_data.weights
        dss_data.measurements_per_observable
      return if cost_test < bc.2 then (test_one_gates, cost_test) else bc)
    (st.1.set single_qubit_box 1, st.2)

/-- `single_qubit_derandomization`: greedy pass over all single-qubit slots starting
from the all-random configuration with running min cost `1000`. -/
noncomputable def single_qubit_derandomization (dss_data : DSSConfig) (m : ℕ)
    (best_two_qubit_gates : List (List ℕ)) (count_hits : List ℚ) :
    Except String (List ℕ) := do
  let init := List.replicate (dss_data.N * (dss_data.depth + 1)) 0
  let res ← (List.range (dss_data.N * (dss_data.depth + 1))).foldlM
    (fun st box => single_qubit_slot_step dss_data m best_two_qubit_gates count_hits st box)
    (init, (1000 : ℝ))
  return res.1

/-- Has observable `i` reached its target hit count? -/
def hit_target_reached (dss_data : DSSConfig) (count_hits : List ℚ) (i : ℕ) : Prop :=
  count_hits.getD i 0 ≥
    (⌊dss_data.weights.getD i 0 * (dss_data.measurements_per_observable : ℚ)⌋ : ℚ)

instance (dss_data : DSSConfig) (count_hits : List ℚ) (i : ℕ) :
    Decidable (hit_target_reached dss_data count_hits i) := by
  unfold hit_target_reached; infer_instance

/-- The loop of `full_derandomization` over the remaining measurement indices. -/
noncomputable def full_derandomization_loop (dss_data : DSSConfig) :
    List ℕ → List (List (List ℕ)) × List (List ℕ) × List ℚ →
    Except String (List (List (List ℕ)) × List (List ℕ) × List ℚ)
  | [], acc => .ok acc
  | m :: rest, (structure_measurement_settings, measurement_settings, count_hits) => do
    let best_two_qubit_gates ← structure_derandomization dss_data m count_hits
    let best_single_qubit_gates ←
      single_qubit_derandomization dss_data m best_two_qubit_gates count_hits
    let ws ← weight_of_all_Paulis dss_data.N best_single_qubit_gates best_two_qubit_gates
      dss_data.pauli_strings_to_learn
    let structure_measurement_settings := structure_measurement_settings ++ [best_two_qubit_gates]
    let measurement_settings := measurement_settings ++ [best_single_qubit_gates]
    let count_hits := List.zipWith (· + ·) count_hits (ws.map Fr.toRat)
    if (m : ℤ) = dss_data.max_num_measurements then
      .ok (structure_measurement_settings, measurement_settings, count_hits)
    else if (List.range dss_data.pauli_masks.length).countP
        (fun i => decide (hit_target_reached dss_data count_hits i)) =
        dss_data.pauli_masks.length then
      .ok (structure_measurement_settings, measurement_settings, count_hits)
    else
      full_derandomization_loop dss_data rest
        (structure_measurement_settings, measurement_settings, count_hits)

/-- `full_derandomization`: derandomize up to
`measurements_per_observable * len(pauli_masks)` measurements, stopping early when
the budget index is reached or every observable has hit its target. -/
noncomputable def full_derandomization (dss_data : DSSConfig) :
    Except String (List (List (List ℕ)) × List (List ℕ) × List ℚ) :=
  full_derandomization_loop dss_data
    (List.range (dss_data.measurements_per_observable * dss_data.pauli_masks.length))
    ([], [], List.replicate dss_data.pauli_masks.length 0)

-- ------------------ twirl-table infrastructure ------------------ --

/-- Pattern index of a flat (4,4,4,4) index: which of the four legs are zero. -/
def patIdx (f : ℕ) : ℕ :=
  min (f / 64) 1 * 8 + min (f / 16 % 4) 1 * 4 + min (f / 4 % 4) 1 * 2 + min (f % 4) 1

/-- A (4,4,4,4) tensor whose entries depend only on the zero-pattern of the legs. -/
def patTable (t : List Fr) : NDArr := ⟨[4, 4, 4, 4], fun f => t.getD (patIdx f) 0⟩

def tw_tbl_id : NDArr :=
  patTable [1, 0, 0, 0, 0, fr 1 3, 0, 0, 0, 0, fr 1 3, 0, 0, 0, 0, fr 1 9]

def tw_tbl_cx : NDArr :=
  patTable [1, 0, 0, 0, 0, fr 1 9, 0, fr 2 27, 0, 0, fr 1 9, fr 2 27,
    0, fr 2 27, fr 2 27, fr 5 81]

def tw_tbl_sw : NDArr :=
  patTable [1, 0, 0, 0, 0, 0, fr 1 3, 0, 0, fr 1 3, 0, 0, 0, 0, 0, fr 1 9]

def tw_tbl_u2 : NDArr :=
  patTable [1, 0, 0, 0, 0, fr 1 15, fr 1 15, fr 1 15, 0, fr 1 15, fr 1 15, fr 1 15,
    0, fr 1 15, fr 1 15, fr 1 15]

theorem local_twirl_congr (g h : NDArr) (hgh : ∀ f < 256, g.data f = h.data f) :
    ∀ f, (local_twirl g).data f = (local_twirl h).data f := by
  intro f
  simp only [local_twirl]
  apply sumR_congr; intro a ha
  apply sumR_congr; intro b hb
  apply sumR_congr; intro c hc
  apply sumR_congr; intro d hd
  rw [hgh (((a * 4 + b) * 4 + c) * 4 + d) (by omega)]

/-- The flat index obtained by collapsing every leg of a (4,4,4,4) index to its
zero-pattern representative (0 stays 0, nonzero becomes 1). -/
def reprIdx (f : ℕ) : ℕ :=
  ((min (f / 64) 1 * 4 + min (f / 16 % 4) 1) * 4 + min (f / 4 % 4) 1) * 4 + min (f % 4) 1

theorem R_row_pattern : ∀ i < 4, ∀ a < 4,
    random_singleq_gate.data (i * 4 + a) =
      random_singleq_gate.data (min i 1 * 4 + a) := by decide

theorem R_col_pattern : ∀ c < 4, ∀ k < 4,
    random_singleq_gate.data (c * 4 + k) =
      random_singleq_gate.data (c * 4 + min k 1) := by decide

theorem reprIdx_div64 (f : ℕ) : reprIdx f / 64 = min (f / 64) 1 := by
  unfold reprIdx
  have h1 : min (f / 64) 1 ≤ 1 := min_le_right _ _
  have h2 : min (f / 16 % 4) 1 ≤ 1 := min_le_right _ _
  have h3 : min (f / 4 % 4) 1 ≤ 1 := min_le_right _ _
  have h4 : min (f % 4) 1 ≤ 1 := min_le_right _ _
  omega

theorem reprIdx_div16 (f : ℕ) : reprIdx f / 16 % 4 = min (f / 16 % 4) 1 := by
  unfold reprIdx
  have h1 : min (f / 64) 1 ≤ 1 := min_le_right _ _
  have h2 : min (f / 16 % 4) 1 ≤ 1 := min_le_right _ _
  have h3 : min (f / 4 % 4) 1 ≤ 1 := min_le_right _ _
  have h4 : min (f % 4) 1 ≤ 1 := min_le_right _ _
  omega

theorem reprIdx_div4 (f : ℕ) : reprIdx f / 4 % 4 = min (f / 4 % 4) 1 := by
  unfold reprIdx
  have h1 : min (f / 64) 1 ≤ 1 := min_le_right _ _
  have h2 : min (f / 16 % 4) 1 ≤ 1 := min_le_right _ _
  have h3 : min (f / 4 % 4) 1 ≤ 1 := min_le_right _ _
  have h4 : min (f % 4) 1 ≤ 1 := min_le_right _ _
  omega

theorem reprIdx_mod4 (f : ℕ) : reprIdx f % 4 = min (f % 4) 1 := by
  unfold reprIdx
  have h1 : min (f / 64) 1 ≤ 1 := min_le_right _ _
  have h2 : min (f / 16 % 4) 1 ≤ 1 := min_le_right _ _
  have h3 : min (f / 4 % 4) 1 ≤ 1 := min_le_right _ _
  have h4 : min (f % 4) 1 ≤ 1 := min_le_right _ _
  omega

/-- A twirled tensor entry depends only on the zero-pattern of its four legs:
the gate factor of each summand does not mention the outer index, and the rows
(resp. columns) 1–3 of `random_singleq_gate` coincide. -/
theorem local_twirl_pattern (g : NDArr) (f : ℕ) (hf : f < 256) :
    (local_twirl g).data f = (local_twirl g).data (reprIdx f) := by
  have hi : f / 64 < 4 := by omega
  have hj : f / 16 % 4 < 4 := by omega
  have hk : f / 4 % 4 < 4 := by omega
  have hl : f % 4 < 4 := by omega
  simp only [local_twirl]
  rw [reprIdx_div64, reprIdx_div16, reprIdx_div4, reprIdx_mod4]
  apply sumR_congr; intro a ha
  apply sumR_congr; intro b hb
  apply sumR_congr; intro c hc
  apply sumR_congr; intro d hd
  rw [R_row_pattern (f / 64) hi a ha, R_row_pattern (f / 16 % 4) hj b hb,
    R_col_pattern c hc (f / 4 % 4) hk, R_col_pattern d hd (f % 4) hl]

theorem min_min_one (a : ℕ) : min (min a 1) 1 = min a 1 := by
  rw [min_assoc, min_self]

theorem patIdx_repr (f : ℕ) : patIdx (reprIdx f) = patIdx f := by
  unfold patIdx
  rw [reprIdx_div64, reprIdx_div16, reprIdx_div4, reprIdx_mod4,
    min_min_one, min_min_one, min_min_one, min_min_one]

/-- Transfer a table identity for `local_twirl g` from the 16 pattern
representatives to all 256 entries. -/
theorem pattern_tbl_of_rep (g : NDArr) (t : List Fr)
    (hrep : ∀ x ≤ 1, ∀ y ≤ 1, ∀ z ≤ 1, ∀ w ≤ 1,
      (local_twirl g).data (((x * 4 + y) * 4 + z) * 4 + w) =
        (patTable t).data (((x * 4 + y) * 4 + z) * 4 + w)) :
    ∀ f < 256, (local_twirl g).data f = (patTable t).data f := by
  intro f hf
  rw [local_twirl_pattern g f hf]
  have htbl : (patTable t).data f = (patTable t).data (reprIdx f) := by
    show t.getD (patIdx f) 0 = t.getD (patIdx (reprIdx f)) 0
    rw [patIdx_repr]
  rw [htbl]
  show (local_twirl g).data (reprIdx f) = (patTable t).data (reprIdx f)
  unfold reprIdx
  exact hrep _ (min_le_right _ _) _ (min_le_right _ _) _ (min_le_right _ _) _
    (min_le_right _ _)

theorem local_twirl_identity_tbl :
    ∀ f < 256, (local_twirl identity_gate).data f = tw_tbl_id.data f :=
  pattern_tbl_of_rep identity_gate _ (by decide)

theorem local_twirl_cnot_tbl :
    ∀ f < 256, (local_twirl cnot_gate).data f = tw_tbl_cx.data f :=
  pattern_tbl_of_rep cnot_gate _ (by decide)

theorem local_twirl_swap_tbl :
    ∀ f < 256, (local_twirl swap_gate).data f = tw_tbl_sw.data f :=
  pattern_tbl_of_rep swap_gate _ (by decide)

theorem local_twirl_u2_tbl :
    ∀ f < 256, (local_twirl u2_gate).data f = tw_tbl_u2.data f :=
  pattern_tbl_of_rep u2_gate _ (by decide)

theorem local_twirl_tbl_id_idem :
    ∀ f < 256, (local_twirl tw_tbl_id).data f = tw_tbl_id.data f :=
  pattern_tbl_of_rep tw_tbl_id _ (by decide)

theorem local_twirl_tbl_cx_idem :
    ∀ f < 256, (local_twirl tw_tbl_cx).data f = tw_tbl_cx.data f :=
  pattern_tbl_of_rep tw_tbl_cx _ (by decide)

theorem local_twirl_tbl_sw_idem :
    ∀ f < 256, (local_twirl tw_tbl_sw).data f = tw_tbl_sw.data f :=
  pattern_tbl_of_rep tw_tbl_sw _ (by decide)

theorem local_twirl_tbl_u2_idem :
    ∀ f < 256, (local_twirl tw_tbl_u2).data f = tw_tbl_u2.data f :=
  pattern_tbl_of_rep tw_tbl_u2 _ (by decide)

/-- The four signature-reduced gates as small (2,2,2,2) tables. -/
def sig_tbl (t : List Fr) : NDArr := ⟨[2, 2, 2, 2], fun f => t.getD f 0⟩

def ts_tbl_id : NDArr := sig_tbl [1, 0, 0, 0, 0, 1, 0, 0, 0, 0, 1, 0, 0, 0, 0, 1]

def ts_tbl_cx : NDArr :=
  sig_tbl [1, 0, 0, 0, 0, fr 1 3, 0, fr 2 3, 0, 0, fr 1 3, fr 2 3,
    0, fr 2 9, fr 2 9, fr 5 9]

def ts_tbl_sw : NDArr := sig_tbl [1, 0, 0, 0, 0, 0, 1, 0, 0, 1, 0, 0, 0, 0, 0, 1]

def ts_tbl_u2 : NDArr :=
  sig_tbl [1, 0, 0, 0, 0, fr 1 5, fr 1 5, fr 3 5, 0, fr 1 5, fr 1 5, fr 3 5,
    0, fr 1 5, fr 1 5, fr 3 5]

/-- The `local_twirl_sig` formula read off a precomputed table for the inner twirl. -/
def sig_of_tbl (T : NDArr) : ℕ → Fr := fun f =>
  let p2 : ℕ → ℕ → ℕ → ℕ → Fr := fun i j kk l =>
    if kk = 0 then T.data (((i * 4 + j) * 4 + 0) * 4 + l)
    else sumR 3 fun t => T.data (((i * 4 + j) * 4 + (t + 1)) * 4 + l)
  let i := f / 8; let j := (f / 4) % 2; let kk := (f / 2) % 2; let ll := f % 2
  if ll = 0 then p2 i j kk 0 else sumR 3 fun t => p2 i j kk (t + 1)

theorem local_twirl_sig_eval (g T : NDArr)
    (h : ∀ x < 256, (local_twirl g).data x = T.data x) :
    ∀ f < 16, (local_twirl_sig g).data f = sig_of_tbl T f := by
  intro f hf
  simp only [local_twirl_sig, sig_of_tbl]
  have hi : f / 8 < 2 := by omega
  have hj : f / 4 % 2 < 2 := by omega
  have hp2 : ∀ i < 2, ∀ j < 2, ∀ kk : ℕ, ∀ l < 4,
      (if kk = 0 then (local_twirl g).data (((i * 4 + j) * 4 + 0) * 4 + l)
        else sumR 3 fun t => (local_twirl g).data (((i * 4 + j) * 4 + (t + 1)) * 4 + l)) =
      (if kk = 0 then T.data (((i * 4 + j) * 4 + 0) * 4 + l)
        else sumR 3 fun t => T.data (((i * 4 + j) * 4 + (t + 1)) * 4 + l)) := by
    intro i hi2 j hj2 kk l hl
    by_cases hkk : kk = 0
    · rw [if_pos hkk, if_pos hkk, h _ (by omega)]
    · rw [if_neg hkk, if_neg hkk]
      exact sumR_congr fun t ht => h _ (by omega)
  by_cases hll : f % 2 = 0
  · rw [if_pos hll, if_pos hll]
    exact hp2 _ hi _ hj _ _ (by omega)
  · rw [if_neg hll, if_neg hll]
    exact sumR_congr fun t ht => hp2 _ hi _ hj _ _ (by omega)

theorem twsig_id_tbl : ∀ f < 16, twsig_id.data f = ts_tbl_id.data f := by
  have h3 : ∀ x < 256, (local_twirl (local_twirl identity_gate)).data x = tw_tbl_id.data x :=
    fun x hx => (local_twirl_congr _ _ local_twirl_identity_tbl x).trans
      (local_twirl_tbl_id_idem x hx)
  intro f hf
  rw [show twsig_id = local_twirl_sig (local_twirl identity_gate) from rfl,
    local_twirl_sig_eval _ _ h3 f hf]
  exact (by decide : ∀ x < 16, sig_of_tbl tw_tbl_id x = ts_tbl_id.data x) f hf

theorem twsig_cx_tbl : ∀ f < 16, twsig_cx.data f = ts_tbl_cx.data f := by
  have h3 : ∀ x < 256, (local_twirl (local_twirl cnot_gate)).data x = tw_tbl_cx.data x :=
    fun x hx => (local_twirl_congr _ _ local_twirl_cnot_tbl x).trans
      (local_twirl_tbl_cx_idem x hx)
  intro f hf
  rw [show twsig_cx = local_twirl_sig (local_twirl cnot_gate) from rfl,
    local_twirl_sig_eval _ _ h3 f hf]
  exact (by decide : ∀ x < 16, sig_of_tbl tw_tbl_cx x = ts_tbl_cx.data x) f hf

theorem twsig_sw_tbl : ∀ f < 16, twsig_sw.data f = ts_tbl_sw.data f := by
  have h3 : ∀ x < 256, (local_twirl (local_twirl swap_gate)).data x = tw_tbl_sw.data x :=
    fun x hx => (local_twirl_congr _ _ local_twirl_swap_tbl x).trans
      (local_twirl_tbl_sw_idem x hx)
  intro f hf
  rw [show twsig_sw = local_twirl_sig (local_twirl swap_gate) from rfl,
    local_twirl_sig_eval _ _ h3 f hf]
  exact (by decide : ∀ x < 16, sig_of_tbl tw_tbl_sw x = ts_tbl_sw.data x) f hf

theorem twsig_u2_tbl : ∀ f < 16, twsig_u2.data f = ts_tbl_u2.data f := by
  have h3 : ∀ x < 256, (local_twirl (local_twirl u2_gate)).data x = tw_tbl_u2.data x :=
    fun x hx => (local_twirl_congr _ _ local_twirl_u2_tbl x).trans
      (local_twirl_tbl_u2_idem x hx)
  intro f hf
  rw [show twsig_u2 = local_twirl_sig (local_twirl u2_gate) from rfl,
    local_twirl_sig_eval _ _ h3 f hf]
  exact (by decide : ∀ x < 16, sig_of_tbl tw_tbl_u2 x = ts_tbl_u2.data x) f hf

-- ------------------------- spec-side definitions ------------------------- --

/-- The cost formula as the specification states it: with `nu = 1 - exp(-eta/2)`,
the sum over observables still below target of
`weight[l] * exp(-eta/2*hits[l]) * (1 - nu*w_part[l]) * (1 - nu*w_random[l])^(T - m - 1)`. -/
noncomputable def cost_formula_spec (eta : ℝ) (total_measurements : ℤ) (m : ℕ)
    (w_part w_random : List Fr) (count_hits weight : List ℚ) (mpo L : ℕ) : ℝ :=
  let nu : ℝ := 1 - Real.exp (-eta / 2)
  ∑ l ∈ (Finset.range L).filter
      (fun l => ¬ count_hits.getD l 0 ≥ (⌊weight.getD l 0 * (mpo : ℚ)⌋ : ℚ)),
    ((weight.getD l 0 : ℚ) : ℝ) *
      (Real.exp ((-eta / 2) * ((count_hits.getD l 0 : ℚ) : ℝ)) *
        (1 - nu * (((w_part.getD l 0).toRat : ℚ) : ℝ)) *
        (1 - nu * (((w_random.getD l 0).toRat : ℚ) : ℝ)) ^ (total_measurements - (m : ℤ) - 1))

theorem cost_foldl_eq_spec (eta : ℝ) (T : ℤ) (m : ℕ)
    (wp wr : List Fr) (hits weight : List ℚ) (mpo L : ℕ) :
    (List.range L).foldl (cost_loop_body eta T m wp wr hits weight mpo) 0 =
      cost_formula_spec eta T m wp wr hits weight mpo L := by
  suffices h : ∀ (c : ℝ), (List.range L).foldl (cost_loop_body eta T m wp wr hits weight mpo) c =
      c + cost_formula_spec eta T m wp wr hits weight mpo L by
    simpa using h 0
  induction L with
  | zero => intro c; simp [cost_formula_spec]
  | succ n ih =>
    intro c
    rw [List.range_succ, List.foldl_append, ih]
    unfold cost_formula_spec
    rw [Finset.range_succ, Finset.filter_insert]
    by_cases hcond : hits.getD n 0 ≥ (⌊weight.getD n 0 * (mpo : ℚ)⌋ : ℚ)
    · simp only [List.foldl_cons, List.foldl_nil, cost_loop_body, if_pos hcond, hcond,
        not_true_eq_false, if_false, if_true]
    · rw [if_pos hcond]
      rw [Finset.sum_insert (by simp)]
      simp only [List.foldl_cons, List.foldl_nil, cost_loop_body, if_neg hcond]
      ring

/-- The structure cost function with both weight vectors known. -/
theorem confidence_structure_eq_spec (N depth : ℕ) (eta : ℝ) (T : ℤ) (m : ℕ)
    (structure_config : List (List ℕ)) (pauli_masks : List (List Bool))
    (count_hits weight : List ℚ) (mpo : ℕ) (wr ws : List Fr)
    (hwr : pauli_masks.mapM (fun mk => calculate_weight_structure N mk depth
      (List.replicate depth (List.replicate (N / 2) 3))) = .ok wr)
    (hws : pauli_masks.mapM (fun mk => calculate_weight_structure N mk depth
      structure_config) = .ok ws) :
    confidence_cost_function_structure N depth eta T m structure_config pauli_masks
        count_hits weight mpo =
      .ok (cost_formula_spec eta T m ws wr count_hits weight mpo pauli_masks.length) := by
  rw [confidence_cost_function_structure, hwr, hws]
  simp [cost_foldl_eq_spec, Bind.bind, Except.bind, pure, Except.pure]

/-- The single-qubit cost function with both weight vectors known. -/
theorem confidence_single_qubit_eq_spec (N depth : ℕ) (eta : ℝ) (T : ℤ) (m : ℕ)
    (column_test : List ℕ) (gate_config : List (List ℕ))
    (pauli_strings_to_learn : List (List ℕ)) (pauli_masks : List (List Bool))
    (count_hits weight : List ℚ) (mpo : ℕ) (wr wq : List Fr)
    (hwr : pauli_masks.mapM (fun mk => calculate_weight_structure N mk depth
      (List.replicate depth (List.replicate (N / 2) 3))) = .ok wr)
    (hwq : (List.range pauli_masks.length).mapM (fun l => calculate_weight_single_qubit N
      (pauli_strings_to_learn.getD l []) column_test gate_config) = .ok wq) :
    confidence_cost_function_single_qubit N depth eta T m column_test gate_config
        pauli_strings_to_learn pauli_masks count_hits weight mpo =
      .ok (cost_formula_spec eta T m wq wr count_hits weight mpo pauli_masks.length) := by
  rw [confidence_cost_function_single_qubit, hwr, hwq]
  simp [cost_foldl_eq_spec, Bind.bind, Except.bind, pure, Except.pure]

-- ------------------- depth-1 contraction evaluation ------------------- --

/-- The matrix obtained by contracting the two boundary rows of `state` with a
single (2,2,2,2) gate `d` in the depth-1, two-qubit pipeline. -/
def mid21 (state : NDArr) (d : ℕ → Fr) : NDArr :=
  ⟨[2, 2], fun m =>
    sumR 2 fun a => sumR 2 fun b =>
      state.data (0 * 2 + a) * state.data (1 * 2 + b) *
        d (((a * 2 + b) * 2 + m / 2) * 2 + m % 2)⟩

theorem dgc21_eval (state : NDArr) (n : ℕ) (hdim : state.shape = [n, 2]) (d : ℕ → Fr) :
    dressed_gates_contract 2 1 state [[⟨[2, 2, 2, 2], d⟩]] 2 =
      .ok (frProd [close_pair [1, fr 1 3] (mid21 state d)]) := by
  cases state with
  | mk sh da =>
    cases hdim
    rfl

theorem mid21_congr (state : NDArr) (d d' : ℕ → Fr) (h : ∀ f < 16, d f = d' f) :
    ∀ m < 4, (mid21 state d).data m = (mid21 state d').data m := by
  intro m hm
  show sumR 2 _ = sumR 2 _
  apply sumR_congr; intro a ha
  apply sumR_congr; intro b hb
  rw [h (((a * 2 + b) * 2 + m / 2) * 2 + m % 2) (by omega)]

theorem close_pair_mid21_congr (state : NDArr) (d d' : ℕ → Fr)
    (h : ∀ f < 16, d f = d' f) :
    close_pair [1, fr 1 3] (mid21 state d) = close_pair [1, fr 1 3] (mid21 state d') := by
  show (sumR 2 fun a => sumR 2 fun b =>
      [(1 : Fr), fr 1 3].getD a 0 * [(1 : Fr), fr 1 3].getD b 0 *
        (mid21 state d).data (a * 2 + b)) =
    (sumR 2 fun a => sumR 2 fun b =>
      [(1 : Fr), fr 1 3].getD a 0 * [(1 : Fr), fr 1 3].getD b 0 *
        (mid21 state d').data (a * 2 + b))
  apply sumR_congr; intro a ha
  apply sumR_congr; intro b hb
  rw [mid21_congr state d d' h (a * 2 + b) (by omega)]

theorem dgc21_congr (state : NDArr) (n : ℕ) (hdim : state.shape = [n, 2]) (d d' : ℕ → Fr)
    (h : ∀ f < 16, d f = d' f) :
    dressed_gates_contract 2 1 state [[⟨[2, 2, 2, 2], d⟩]] 2 =
      dressed_gates_contract 2 1 state [[⟨[2, 2, 2, 2], d'⟩]] 2 := by
  rw [dgc21_eval state n hdim d, dgc21_eval state n hdim d']
  rw [show frProd [close_pair [1, fr 1 3] (mid21 state d)] =
      close_pair [1, fr 1 3] (mid21 state d) * 1 from rfl]
  rw [show frProd [close_pair [1, fr 1 3] (mid21 state d')] =
      close_pair [1, fr 1 3] (mid21 state d') * 1 from rfl]
  rw [close_pair_mid21_congr state d d' h]

/-- `calculate_weight_structure` at `N = 2`, `depth = 1` with the gate's
signature tensor replaced by an equal table. -/
theorem cws21_tbl (mask : List Bool) (g : ℕ) (T : NDArr)
    (hsh : (twrld_sig_twoq_dict g).shape = [2, 2, 2, 2]) (hTsh : T.shape = [2, 2, 2, 2])
    (h : ∀ f < 16, (twrld_sig_twoq_dict g).data f = T.data f) :
    calculate_weight_structure 2 mask 1 [[g]] =
      dressed_gates_contract 2 1 (initial_state_sig mask 2) [[T]] 2 := by
  show dressed_gates_contract 2 1 (initial_state_sig mask 2) [[twrld_sig_twoq_dict g]] 2 = _
  rw [show twrld_sig_twoq_dict g = ⟨(twrld_sig_twoq_dict g).shape, (twrld_sig_twoq_dict g).data⟩
      from rfl, hsh]
  rw [show T = ⟨T.shape, T.data⟩ from rfl, hTsh]
  exact dgc21_congr (initial_state_sig mask 2) mask.length rfl _ _ h

theorem w_tt_0 : calculate_weight_structure 2 [true, true] 1 [[0]] = .ok (fr 1 9) := by
  rw [cws21_tbl [true, true] 0 ts_tbl_id rfl rfl twsig_id_tbl]
  decide

theorem w_tt_1 : calculate_weight_structure 2 [true, true] 1 [[1]] = .ok (fr 17 81) := by
  rw [cws21_tbl [true, true] 1 ts_tbl_cx rfl rfl twsig_cx_tbl]
  decide

theorem w_tt_2 : calculate_weight_structure 2 [true, true] 1 [[2]] = .ok (fr 1 9) := by
  rw [cws21_tbl [true, true] 2 ts_tbl_sw rfl rfl twsig_sw_tbl]
  decide

theorem w_tt_3 : calculate_weight_structure 2 [true, true] 1 [[3]] = .ok (fr 1 5) := by
  rw [cws21_tbl [true, true] 3 ts_tbl_u2 rfl rfl twsig_u2_tbl]
  decide

-- ---------------- structure pass: cell-step characterization ---------------- --

theorem set2_set2 (c : List (List ℕ)) (l g a b : ℕ) :
    set2 (set2 c l g a) l g b = set2 c l g b := by
  induction c generalizing l with
  | nil => rfl
  | cons h t ih =>
    cases l with
    | zero =>
      show (((h.set g a) :: t).getD 0 []).set g b :: t = _
      rw [show ((h.set g a) :: t).getD 0 [] = h.set g a from rfl, List.set_set]
      rfl
    | succ l' =>
      show h :: set2 (set2 t l' g a) l' g b = h :: set2 t l' g b
      rw [ih l']

/-- What one cell of the structure pass actually does: the cell is preset to `0`,
and the gate committed is the first minimizer of the three candidate costs, but
only when that minimum strictly beats the running best cost carried in from the
previous cells; otherwise the preset `0` is kept and the running best is
unchanged. -/
theorem structure_cell_step_spec (dss_data : DSSConfig) (m : ℕ) (count_hits : List ℚ)
    (st : List (List ℕ) × ℝ) (l g : ℕ) (c0 c1 c2 : ℝ)
    (h0 : confidence_cost_function_structure dss_data.N dss_data.depth dss_data.eta
      dss_data.max_num_measurements m (set2 st.1 l g 0) dss_data.pauli_masks count_hits
      dss_data.weights dss_data.measurements_per_observable = .ok c0)
    (h1 : confidence_cost_function_structure dss_data.N dss_data.depth dss_data.eta
      dss_data.max_num_measurements m (set2 st.1 l g 1) dss_data.pauli_masks count_hits
      dss_data.weights dss_data.measurements_per_observable = .ok c1)
    (h2 : confidence_cost_function_structure dss_data.N dss_data.depth dss_data.eta
      dss_data.max_num_measurements m (set2 st.1 l g 2) dss_data.pauli_masks count_hits
      dss_data.weights dss_data.measurements_per_observable = .ok c2) :
    structure_cell_step dss_data m count_hits st l g =
      .ok (if min c0 (min c1 c2) < st.2 then
          (set2 st.1 l g (if c0 ≤ c1 ∧ c0 ≤ c2 then 0 else if c1 ≤ c2 then 1 else 2),
            min c0 (min c1 c2))
        else (set2 st.1 l g 0, st.2)) := by
  have hmin0 : c0 ≤ c1 → c0 ≤ c2 → min c0 (min c1 c2) = c0 := fun a b => by
    rw [min_eq_left]; rw [le_min_iff]; exact ⟨a, b⟩
  have hmin1 : c1 ≤ c0 → c1 ≤ c2 → min c0 (min c1 c2) = c1 := fun a b => by
    rw [min_eq_left b, min_eq_right a]
  have hmin2 : c2 ≤ c0 → c2 ≤ c1 → min c0 (min c1 c2) = c2 := fun a b => by
    rw [min_eq_right b, min_eq_right a]
  unfold structure_cell_step
  simp only [List.foldlM, set2_set2, h0, Bind.bind, Except.bind, pure, Except.pure]
  by_cases p0 : c0 < st.2
  · rw [if_pos p0]
    simp only [set2_set2, h1]
    by_cases p1 : c1 < c0
    · rw [if_pos p1]
      simp only [set2_set2, h2]
      by_cases p2 : c2 < c1
      · rw [if_pos p2, if_pos (by rw [hmin2 (by linarith) (by linarith)]; linarith)]
        rw [if_neg (by push_neg; intro hc; linarith)]
        rw [if_neg (by linarith), hmin2 (by linarith) (by linarith)]
      · rw [if_neg p2, if_pos (by rw [hmin1 (by linarith) (by linarith)]; linarith)]
        rw [if_neg (by push_neg; intro hc; linarith)]
        rw [if_pos (by linarith), hmin1 (by linarith) (by linarith)]
    · rw [if_neg p1]
      simp only [set2_set2, h2]
      by_cases p2 : c2 < c0
      · rw [if_pos p2, if_pos (by rw [hmin2 (by linarith) (by linarith)]; linarith)]
        rw [if_neg (by push_neg; intro hc; linarith)]
        rw [if_neg (by linarith), hmin2 (by linarith) (by linarith)]
      · rw [if_neg p2, if_pos (by rw [hmin0 (by linarith) (by linarith)]; linarith)]
        rw [if_pos ⟨by linarith, by linarith⟩, hmin0 (by linarith) (by linarith)]
  · rw [if_neg p0]
    simp only [set2_set2, h1]
    by_cases p1 : c1 < st.2
    · rw [if_pos p1]
      simp only [set2_set2, h2]
      by_cases p2 : c2 < c1
      · rw [if_pos p2, if_pos (by rw [hmin2 (by linarith) (by linarith)]; linarith)]
        rw [if_neg (by push_neg; intro hc; linarith)]
        rw [if_neg (by linarith), hmin2 (by linarith) (by linarith)]
      · rw [if_neg p2, if_pos (by rw [hmin1 (by linarith) (by linarith)]; linarith)]
        rw [if_neg (by push_neg; intro hc; linarith)]
        rw [if_pos (by linarith), hmin1 (by linarith) (by linarith)]
    · rw [if_neg p1]
      simp only [set2_set2, h2]
      by_cases p2 : c2 < st.2
      · rw [if_pos p2, if_pos (by rw [hmin2 (by linarith) (by linarith)]; linarith)]
        rw [if_neg (by push_neg; intro hc; linarith)]
        rw [if_neg (by linarith), hmin2 (by linarith) (by linarith)]
      · rw [if_neg p2, if_neg (by
          push_neg
          rw [le_min_iff, le_min_iff]
          exact ⟨by linarith, by linarith, by linarith⟩)]

-- ---------------------- a concrete structure session ---------------------- --

/-- A concrete session: two qubits, depth 1, a single `ZZ` observable with
weight `1000000`, `eta = 2 log 2`, one measurement per observable, budget 1. -/
noncomputable def cfgC3 : DSSConfig :=
  ⟨2, 1, 2 * Real.log 2, 1, 1, [[3, 3]], [[true, true]], [1000000]⟩

theorem exp_half_log4 : Real.exp (-(2 * Real.log 2) / 2) = 1 / 2 := by
  rw [show -(2 * Real.log 2) / 2 = -Real.log 2 by ring, Real.exp_neg,
    Real.exp_log (by norm_num : (0 : ℝ) < 2)]
  norm_num

/-- Cost of one structure candidate in the concrete session: one `ZZ`
observable of weight `1000000`, `eta = 2 log 2`, one measurement in total. -/
theorem c3_cost_eval (cand : List (List ℕ)) (W : Fr) (q : ℚ)
    (hW : calculate_weight_structure 2 [true, true] 1 cand = .ok W)
    (hq : W.toRat = q) :
    confidence_cost_function_structure 2 1 (2 * Real.log 2) 1 0 cand [[true, true]]
        [0] [1000000] 1 =
      .ok (1000000 * (1 - (1 / 2) * (q : ℝ))) := by
  have hwr : ([[true, true]] : List (List Bool)).mapM
      (fun mk => calculate_weight_structure 2 mk 1
        (List.replicate 1 (List.replicate (2 / 2) 3))) = .ok [fr 1 5] := by
    simp [List.mapM, List.mapM.loop, w_tt_3, Bind.bind, Except.bind, pure, Except.pure]
  have hws : ([[true, true]] : List (List Bool)).mapM
      (fun mk => calculate_weight_structure 2 mk 1 cand) = .ok [W] := by
    simp [List.mapM, List.mapM.loop, hW, Bind.bind, Except.bind, pure, Except.pure]
  rw [confidence_structure_eq_spec 2 1 (2 * Real.log 2) 1 0 cand [[true, true]]
    [0] [1000000] 1 [fr 1 5] [W] hwr hws]
  congr 1
  unfold cost_formula_spec
  have hfloor : (⌊([(1000000 : ℚ)].getD 0 0) * ((1 : ℕ) : ℚ)⌋ : ℚ) = 1000000 := by
    norm_num
  have hP : ¬ ([(0 : ℚ)].getD 0 0 ≥ (⌊([(1000000 : ℚ)].getD 0 0) * ((1 : ℕ) : ℚ)⌋ : ℚ)) := by
    rw [hfloor]
    norm_num
  rw [show ([[true, true]] : List (List Bool)).length = 1 from rfl, Finset.range_one,
    Finset.filter_singleton, if_pos hP, Finset.sum_singleton]
  have h15 : (fr 1 5).toRat = 1 / 5 := by
    rw [fr_toRat 1 5 (by norm_num)]
    norm_num
  simp only [List.getD_cons_zero, h15, hq]
  rw [show ((0 : ℚ) : ℝ) = 0 from Rat.cast_zero, mul_zero, Real.exp_zero]
  rw [show ((1 : ℤ) - ((0 : ℕ) : ℤ) - 1) = 0 by norm_num]
  rw [zpow_zero, exp_half_log4]
  push_cast
  ring

theorem c3_cost_0 : confidence_cost_function_structure 2 1 (2 * Real.log 2) 1 0 [[0]]
    [[true, true]] [0] [1000000] 1 = .ok (1000000 * (17 / 18)) := by
  rw [c3_cost_eval [[0]] (fr 1 9) (1 / 9) w_tt_0
    (by rw [fr_toRat 1 9 (by norm_num)]; norm_num)]
  norm_num

theorem c3_cost_1 : confidence_cost_function_structure 2 1 (2 * Real.log 2) 1 0 [[1]]
    [[true, true]] [0] [1000000] 1 = .ok (1000000 * (145 / 162)) := by
  rw [c3_cost_eval [[1]] (fr 17 81) (17 / 81) w_tt_1
    (by rw [fr_toRat 17 81 (by norm_num)]; norm_num)]
  norm_num

theorem c3_cost_2 : confidence_cost_function_structure 2 1 (2 * Real.log 2) 1 0 [[2]]
    [[true, true]] [0] [1000000] 1 = .ok (1000000 * (17 / 18)) := by
  rw [c3_cost_eval [[2]] (fr 1 9) (1 / 9) w_tt_2
    (by rw [fr_toRat 1 9 (by norm_num)]; norm_num)]
  norm_num

theorem c3_structure_run : structure_derandomization cfgC3 0 [0] = .ok [[0]] := by
  have hcell := structure_cell_step_spec cfgC3 0 [0] ([[3]], 100000) 0 0
    (1000000 * (17 / 18)) (1000000 * (145 / 162)) (1000000 * (17 / 18))
    c3_cost_0 c3_cost_1 c3_cost_2
  have hn : ¬ (min (1000000 * (17 / 18) : ℝ)
      (min (1000000 * (145 / 162)) (1000000 * (17 / 18))) < 100000) := by
    rw [not_lt, le_min_iff, le_min_iff]
    norm_num
  dsimp only at hcell
  rw [if_neg hn] at hcell
  unfold structure_derandomization
  simp only [show List.range cfgC3.depth = [0] from rfl,
    show List.range (cfgC3.N / 2) = [0] from rfl,
    show List.replicate cfgC3.depth (List.replicate (cfgC3.N / 2) 3) = [[3]] from rfl,
    List.foldlM, hcell, Bind.bind, Except.bind, pure, Except.pure]
  rfl

/-- The matrix obtained by contracting the two boundary rows of `state` with a
single (4,4,4,4) gate `d` in the depth-1, two-qubit, bond-4 pipeline. -/
def mid41 (state : NDArr) (d : ℕ → Fr) : NDArr :=
  ⟨[4, 4], fun m =>
    sumR 4 fun a => sumR 4 fun b =>
      state.data (0 * 4 + a) * state.data (1 * 4 + b) *
        d (((a * 4 + b) * 4 + m / 4) * 4 + m % 4)⟩

theorem dgc41_eval (state : NDArr) (n : ℕ) (hdim : state.shape = [n, 4]) (d : ℕ → Fr) :
    dressed_gates_contract 2 1 state [[⟨[4, 4, 4, 4], d⟩]] 4 =
      .ok (frProd [close_pair [1, 0, 0, 1] (mid41 state d)]) := by
  cases state with
  | mk sh da =>
    cases hdim
    rfl

/-- Dressing the input legs of the identity gate with single-qubit gates gives a
tensor product: entry `(i,j,k,l)` is `s0[i,k') * s1[j,l]`. -/
theorem dress_in_id_entry (s0d s1d : ℕ → Fr) (i j k l : ℕ)
    (hi : i < 4) (hj : j < 4) (hk : k < 4) (hl : l < 4) :
    ((einsum_dress_in ⟨[4, 4], s0d⟩ ⟨[4, 4], s1d⟩ identity_gate).data
        (((i * 4 + j) * 4 + k) * 4 + l)).toRat =
      (s0d (i * 4 + k)).toRat * (s1d (j * 4 + l)).toRat := by
  have e1 : (((i * 4 + j) * 4 + k) * 4 + l) % 4 = l := by omega
  have e2 : (((i * 4 + j) * 4 + k) * 4 + l) / 4 % 4 = k := by omega
  have e3 : (((i * 4 + j) * 4 + k) * 4 + l) / 4 / 4 % 4 = j := by omega
  have e4 : (((i * 4 + j) * 4 + k) * 4 + l) / 4 / 4 / 4 = i := by omega
  show (sumR 4 fun a => sumR 4 fun b =>
      s0d (a * 4 + (((i * 4 + j) * 4 + k) * 4 + l) / 4 % 4) *
        s1d (b * 4 + (((i * 4 + j) * 4 + k) * 4 + l) % 4) *
        identity_gate.data
          ((((((i * 4 + j) * 4 + k) * 4 + l) / 4 / 4 / 4 * 4 +
            (((i * 4 + j) * 4 + k) * 4 + l) / 4 / 4 % 4) * 4 + a) * 4 + b)).toRat = _
  rw [e1, e2, e3, e4]
  rw [sumR_toRat]
  interval_cases i <;> interval_cases j <;>
    simp [Finset.sum_range_succ, sumR_toRat, Fr.toRat_mul, Fr.toRat_zero, Fr.toRat_one,
      identity_gate]

/-- Entry of the fully dressed identity gate: the product of the corresponding
entries of the matrix products `t0*s0` and `t1*s1` (at the level of rationals). -/
theorem dress_out_id_entry (s0d s1d t0d t1d : ℕ → Fr) (i j k l : ℕ)
    (hi : i < 4) (hj : j < 4) (hk : k < 4) (hl : l < 4) :
    ((einsum_dress_out ⟨[4, 4], t0d⟩ ⟨[4, 4], t1d⟩
        (einsum_dress_in ⟨[4, 4], s0d⟩ ⟨[4, 4], s1d⟩ identity_gate)).data
      (((i * 4 + j) * 4 + k) * 4 + l)).toRat =
    (∑ a ∈ Finset.range 4, (t0d (i * 4 + a)).toRat * (s0d (a * 4 + k)).toRat) *
    (∑ b ∈ Finset.range 4, (t1d (j * 4 + b)).toRat * (s1d (b * 4 + l)).toRat) := by
  have e1 : (((i * 4 + j) * 4 + k) * 4 + l) % 4 = l := by omega
  have e2 : (((i * 4 + j) * 4 + k) * 4 + l) / 4 % 4 = k := by omega
  have e3 : (((i * 4 + j) * 4 + k) * 4 + l) / 4 / 4 % 4 = j := by omega
  have e4 : (((i * 4 + j) * 4 + k) * 4 + l) / 4 / 4 / 4 = i := by omega
  show (sumR 4 fun a => sumR 4 fun b =>
      t0d ((((i * 4 + j) * 4 + k) * 4 + l) / 4 / 4 / 4 * 4 + a) *
        t1d ((((i * 4 + j) * 4 + k) * 4 + l) / 4 / 4 % 4 * 4 + b) *
        (einsum_dress_in ⟨[4, 4], s0d⟩ ⟨[4, 4], s1d⟩ identity_gate).data
          (((a * 4 + b) * 4 + (((i * 4 + j) * 4 + k) * 4 + l) / 4 % 4) * 4 +
            (((i * 4 + j) * 4 + k) * 4 + l) % 4)).toRat = _
  rw [e1, e2, e3, e4]
  rw [sumR_toRat]
  calc (∑ a ∈ Finset.range 4, (sumR 4 fun b =>
        t0d (i * 4 + a) * t1d (j * 4 + b) *
          (einsum_dress_in ⟨[4, 4], s0d⟩ ⟨[4, 4], s1d⟩ identity_gate).data
            (((a * 4 + b) * 4 + k) * 4 + l)).toRat)
      = ∑ a ∈ Finset.range 4, ∑ b ∈ Finset.range 4,
          (t0d (i * 4 + a)).toRat * (s0d (a * 4 + k)).toRat *
            ((t1d (j * 4 + b)).toRat * (s1d (b * 4 + l)).toRat) := by
        apply Finset.sum_congr rfl
        intro a ha
        rw [sumR_toRat]
        apply Finset.sum_congr rfl
        intro b hb
        rw [Fr.toRat_mul, Fr.toRat_mul,
          dress_in_id_entry s0d s1d a b k l (Finset.mem_range.mp ha)
            (Finset.mem_range.mp hb) hk hl]
        ring
    _ = _ := by
        rw [Finset.sum_mul_sum]

theorem fr13_toRat : (fr 1 3).toRat = 1 / 3 := by
  rw [fr_toRat 1 3 (by norm_num)]
  norm_num

/-- Rational entry of the matrix product of two single-qubit gate tensors. -/
def tsQ (td sd : ℕ → Fr) (i k : ℕ) : ℚ :=
  ∑ a ∈ Finset.range 4, (td (i * 4 + a)).toRat * (sd (a * 4 + k)).toRat

theorem dress_out_id_entry_flat (s0d s1d t0d t1d : ℕ → Fr) (f : ℕ) (hf : f < 256) :
    ((einsum_dress_out ⟨[4, 4], t0d⟩ ⟨[4, 4], t1d⟩
        (einsum_dress_in ⟨[4, 4], s0d⟩ ⟨[4, 4], s1d⟩ identity_gate)).data f).toRat =
      tsQ t0d s0d (f / 64) (f / 4 % 4) * tsQ t1d s1d (f / 16 % 4) (f % 4) := by
  have hrec : f = (((f / 64) * 4 + f / 16 % 4) * 4 + f / 4 % 4) * 4 + f % 4 := by omega
  rw [show ((einsum_dress_out ⟨[4, 4], t0d⟩ ⟨[4, 4], t1d⟩
      (einsum_dress_in ⟨[4, 4], s0d⟩ ⟨[4, 4], s1d⟩ identity_gate)).data f) =
    ((einsum_dress_out ⟨[4, 4], t0d⟩ ⟨[4, 4], t1d⟩
      (einsum_dress_in ⟨[4, 4], s0d⟩ ⟨[4, 4], s1d⟩ identity_gate)).data
        ((((f / 64) * 4 + f / 16 % 4) * 4 + f / 4 % 4) * 4 + f % 4)) by rw [← hrec]]
  rw [dress_out_id_entry s0d s1d t0d t1d (f / 64) (f / 16 % 4) (f / 4 % 4) (f % 4)
    (by omega) (by omega) (by omega) (by omega)]
  rfl

/-- The per-qubit boundary value: row `r` of the state against the dressed wire
`t * s` and the bond-4 measurement vector. -/
def vdotQ (std : ℕ → Fr) (r : ℕ) (td sd : ℕ → Fr) : ℚ :=
  ∑ k ∈ Finset.range 4, (([1, 0, 0, 1] : List Fr).getD k 0).toRat *
    ∑ x ∈ Finset.range 4, (std (r * 4 + x)).toRat * tsQ td sd x k

/-- The depth-1, bond-4 weight of a two-qubit dressed identity gate factorizes
into the two per-qubit boundary values. -/
theorem W41_dress_toRat (state : NDArr) (s0d s1d t0d t1d : ℕ → Fr) :
    (frProd [close_pair [1, 0, 0, 1] (mid41 state
        (einsum_dress_out ⟨[4, 4], t0d⟩ ⟨[4, 4], t1d⟩
          (einsum_dress_in ⟨[4, 4], s0d⟩ ⟨[4, 4], s1d⟩ identity_gate)).data)]).toRat =
      vdotQ state.data 0 t0d s0d * vdotQ state.data 1 t1d s1d := by
  rw [show frProd [close_pair [1, 0, 0, 1] (mid41 state
      (einsum_dress_out ⟨[4, 4], t0d⟩ ⟨[4, 4], t1d⟩
        (einsum_dress_in ⟨[4, 4], s0d⟩ ⟨[4, 4], s1d⟩ identity_gate)).data)] =
    close_pair [1, 0, 0, 1] (mid41 state
      (einsum_dress_out ⟨[4, 4], t0d⟩ ⟨[4, 4], t1d⟩
        (einsum_dress_in ⟨[4, 4], s0d⟩ ⟨[4, 4], s1d⟩ identity_gate)).data) * 1 from rfl]
  rw [Fr.toRat_mul, Fr.toRat_one, mul_one]
  show (sumR 4 fun a => sumR 4 fun b =>
    ([1, 0, 0, 1] : List Fr).getD a 0 * ([1, 0, 0, 1] : List Fr).getD b 0 *
      (sumR 4 fun x => sumR 4 fun y =>
        state.data (0 * 4 + x) * state.data (1 * 4 + y) *
          (einsum_dress_out ⟨[4, 4], t0d⟩ ⟨[4, 4], t1d⟩
            (einsum_dress_in ⟨[4, 4], s0d⟩ ⟨[4, 4], s1d⟩ identity_gate)).data
              (((x * 4 + y) * 4 + (a * 4 + b) / 4) * 4 + (a * 4 + b) % 4))).toRat = _
  simp only [sumR_toRat, Fr.toRat_mul]
  simp only [vdotQ]
  simp only [Finset.sum_range_succ, Finset.sum_range_zero, zero_add]
  norm_num [List.getD, Fr.toRat_zero, Fr.toRat_one]
  norm_num [dress_out_id_entry_flat]
  ring

theorem Gshape (c : ℕ) : (get_single_qubit_gate_dict c).shape = [4, 4] := by
  unfold get_single_qubit_gate_dict
  rcases c with _ | _ | _ | _ | _ | _ | n <;> rfl

theorem rollL_one_two (a b : ℕ) : rollL 1 [a, b] = [b, a] := by
  rw [show rollL 1 [a, b] =
    [[a, b].getD ((0 + 1) % 2) 0, [a, b].getD ((1 + 1) % 2) 0] from rfl]
  norm_num

theorem rollL_zero_two (a b : ℕ) : rollL 0 [a, b] = [a, b] := rfl

theorem reorder2 (c0 c1 c2 c3 : ℕ) :
    reorder_single_qubit_config [[c0, c1], [c2, c3]] = [[c2, c3], [c0, c1]] := by
  rw [show reorder_single_qubit_config [[c0, c1], [c2, c3]] =
    [rollL ((0 + if (0 : ℕ) = 1 then 1 else 0) % 2) [c2, c3],
     rollL ((1 + if (1 : ℕ) = 1 then 1 else 0) % 2) [c0, c1]] from rfl]
  norm_num
  exact ⟨rollL_zero_two c2 c3, rollL_zero_two c0 c1⟩

theorem dress21 (c0 c1 c2 c3 : ℕ) :
    dress_twoq_gates [[0]] [[c0, c1], [c2, c3]] =
      [[einsum_dress_out (get_single_qubit_gate_dict c0) (get_single_qubit_gate_dict c1)
        (einsum_dress_in (get_single_qubit_gate_dict c2) (get_single_qubit_gate_dict c3)
          identity_gate)]] := by
  unfold dress_twoq_gates
  rw [reorder2]
  rfl

/-- `calculate_weight_single_qubit` at `N = 2`, `depth = 1`, identity structure:
the engine contracts one dressed identity gate. -/
theorem cwsq21_eval (pm : List ℕ) (c0 c1 c2 c3 : ℕ) :
    calculate_weight_single_qubit 2 pm [c0, c1, c2, c3] [[0]] =
      dressed_gates_contract 2 1 (pauli_state pm)
        [[einsum_dress_out (get_single_qubit_gate_dict c0) (get_single_qubit_gate_dict c1)
          (einsum_dress_in (get_single_qubit_gate_dict c2) (get_single_qubit_gate_dict c3)
            identity_gate)]] 4 := by
  rw [show calculate_weight_single_qubit 2 pm [c0, c1, c2, c3] [[0]] =
      dressed_gates_contract 2 1 (pauli_state pm)
        (dress_twoq_gates [[0]] [[c0, c1], [c2, c3]]) 4 from rfl]
  rw [dress21]

/-- The depth-1 full weight on the identity structure, as a product of two
per-qubit boundary values. -/
theorem c4_weight (pm : List ℕ) (c0 c1 c2 c3 : ℕ) :
    ∃ W, calculate_weight_single_qubit 2 pm [c0, c1, c2, c3] [[0]] = .ok W ∧
      W.toRat =
        vdotQ (pauli_state pm).data 0 (get_single_qubit_gate_dict c0).data
          (get_single_qubit_gate_dict c2).data *
        vdotQ (pauli_state pm).data 1 (get_single_qubit_gate_dict c1).data
          (get_single_qubit_gate_dict c3).data := by
  rw [cwsq21_eval]
  rw [show get_single_qubit_gate_dict c0 =
    ⟨(get_single_qubit_gate_dict c0).shape, (get_single_qubit_gate_dict c0).data⟩ from rfl,
    Gshape c0]
  rw [show get_single_qubit_gate_dict c1 =
    ⟨(get_single_qubit_gate_dict c1).shape, (get_single_qubit_gate_dict c1).data⟩ from rfl,
    Gshape c1]
  rw [show get_single_qubit_gate_dict c2 =
    ⟨(get_single_qubit_gate_dict c2).shape, (get_single_qubit_gate_dict c2).data⟩ from rfl,
    Gshape c2]
  rw [show get_single_qubit_gate_dict c3 =
    ⟨(get_single_qubit_gate_dict c3).shape, (get_single_qubit_gate_dict c3).data⟩ from rfl,
    Gshape c3]
  rw [show (einsum_dress_out ⟨[4, 4], (get_single_qubit_gate_dict c0).data⟩
      ⟨[4, 4], (get_single_qubit_gate_dict c1).data⟩
      (einsum_dress_in ⟨[4, 4], (get_single_qubit_gate_dict c2).data⟩
        ⟨[4, 4], (get_single_qubit_gate_dict c3).data⟩ identity_gate)) =
    ⟨[4, 4, 4, 4], (einsum_dress_out ⟨[4, 4], (get_single_qubit_gate_dict c0).data⟩
      ⟨[4, 4], (get_single_qubit_gate_dict c1).data⟩
      (einsum_dress_in ⟨[4, 4], (get_single_qubit_gate_dict c2).data⟩
        ⟨[4, 4], (get_single_qubit_gate_dict c3).data⟩ identity_gate)).data⟩ from rfl]
  rw [dgc41_eval (pauli_state pm) pm.length rfl]
  exact ⟨_, rfl, W41_dress_toRat (pauli_state pm) _ _ _ _⟩

theorem w_tf_3 : calculate_weight_structure 2 [true, false] 1 [[3]] = .ok (fr 1 5) := by
  rw [cws21_tbl [true, false] 3 ts_tbl_u2 rfl rfl twsig_u2_tbl]
  decide

/-- Cost of one single-qubit candidate in the concrete session: one `XI`
observable of weight `4000`, `eta = 2 log 2`, one measurement in total. -/
theorem c4_cost_eval (col : List ℕ) (W : Fr) (q : ℚ)
    (hW : calculate_weight_single_qubit 2 [1, 0] col [[0]] = .ok W)
    (hq : W.toRat = q) :
    confidence_cost_function_single_qubit 2 1 (2 * Real.log 2) 1 0 col [[0]] [[1, 0]]
        [[true, false]] [0] [4000] 1 =
      .ok (4000 * (1 - (1 / 2) * (q : ℝ))) := by
  have hwr : ([[true, false]] : List (List Bool)).mapM
      (fun mk => calculate_weight_structure 2 mk 1
        (List.replicate 1 (List.replicate (2 / 2) 3))) = .ok [fr 1 5] := by
    simp [List.mapM, List.mapM.loop, w_tf_3, Bind.bind, Except.bind, pure, Except.pure]
  have hwq : (List.range ([[true, false]] : List (List Bool)).length).mapM
      (fun l => calculate_weight_single_qubit 2 (([[1, 0]] : List (List ℕ)).getD l [])
        col [[0]]) = .ok [W] := by
    simp [show List.range ([[true, false]] : List (List Bool)).length = [0] from rfl,
      List.mapM, List.mapM.loop, hW, Bind.bind, Except.bind, pure, Except.pure]
  rw [confidence_single_qubit_eq_spec 2 1 (2 * Real.log 2) 1 0 col [[0]] [[1, 0]]
    [[true, false]] [0] [4000] 1 [fr 1 5] [W] hwr hwq]
  congr 1
  unfold cost_formula_spec
  have hfloor : (⌊([(4000 : ℚ)].getD 0 0) * ((1 : ℕ) : ℚ)⌋ : ℚ) = 4000 := by
    norm_num
  have hP : ¬ ([(0 : ℚ)].getD 0 0 ≥ (⌊([(4000 : ℚ)].getD 0 0) * ((1 : ℕ) : ℚ)⌋ : ℚ)) := by
    rw [hfloor]
    norm_num
  rw [show ([[true, false]] : List (List Bool)).length = 1 from rfl, Finset.range_one,
    Finset.filter_singleton, if_pos hP, Finset.sum_singleton]
  have h15 : (fr 1 5).toRat = 1 / 5 := by
    rw [fr_toRat 1 5 (by norm_num)]
    norm_num
  simp only [List.getD_cons_zero, h15, hq]
  rw [show ((0 : ℚ) : ℝ) = 0 from Rat.cast_zero, mul_zero, Real.exp_zero]
  rw [show ((1 : ℤ) - ((0 : ℕ) : ℤ) - 1) = 0 by norm_num]
  rw [zpow_zero, exp_half_log4]
  push_cast
  ring

theorem c4_cost_fact (c0 c1 c2 c3 : ℕ) (q : ℚ)
    (hq : vdotQ (pauli_state [1, 0]).data 0 (get_single_qubit_gate_dict c0).data
        (get_single_qubit_gate_dict c2).data *
      vdotQ (pauli_state [1, 0]).data 1 (get_single_qubit_gate_dict c1).data
        (get_single_qubit_gate_dict c3).data = q) :
    confidence_cost_function_single_qubit 2 1 (2 * Real.log 2) 1 0 [c0, c1, c2, c3]
        [[0]] [[1, 0]] [[true, false]] [0] [4000] 1 =
      .ok (4000 * (1 - (1 / 2) * (q : ℝ))) := by
  obtain ⟨W, hW, hq'⟩ := c4_weight [1, 0] c0 c1 c2 c3
  exact c4_cost_eval [c0, c1, c2, c3] W q hW (hq'.trans hq)

/-- A slot of the single-qubit pass where no candidate beats the running best:
the preset identity symbol `1` is kept and the best cost is unchanged. -/
theorem slot_step_no_commit (dss : DSSConfig) (m : ℕ) (best : List (List ℕ))
    (hits : List ℚ) (base : List ℕ) (r : ℝ) (box : ℕ) (c : ℕ → ℝ)
    (hc : ∀ g, 1 ≤ g → g ≤ 6 →
      confidence_cost_function_single_qubit dss.N dss.depth dss.eta
        dss.max_num_measurements m ((base.set box 1).set box g) best
        dss.pauli_strings_to_learn dss.pauli_masks hits dss.weights
        dss.measurements_per_observable = .ok (c g))
    (hge : ∀ g, 1 ≤ g → g ≤ 6 → ¬ c g < r) :
    single_qubit_slot_step dss m best hits (base, r) box = .ok (base.set box 1, r) := by
  have h1 := hc 1 (by norm_num) (by norm_num)
  have h2 := hc 2 (by norm_num) (by norm_num)
  have h3 := hc 3 (by norm_num) (by norm_num)
  have h4 := hc 4 (by norm_num) (by norm_num)
  have h5 := hc 5 (by norm_num) (by norm_num)
  have h6 := hc 6 (by norm_num) (by norm_num)
  unfold single_qubit_slot_step
  simp only [List.foldlM, h1, Bind.bind, Except.bind, pure, Except.pure]
  rw [if_neg (hge 1 (by norm_num) (by norm_num))]
  simp only [h2]
  rw [if_neg (hge 2 (by norm_num) (by norm_num))]
  simp only [h3]
  rw [if_neg (hge 3 (by norm_num) (by norm_num))]
  simp only [h4]
  rw [if_neg (hge 4 (by norm_num) (by norm_num))]
  simp only [h5]
  rw [if_neg (hge 5 (by norm_num) (by norm_num))]
  simp only [h6]
  rw [if_neg (hge 6 (by norm_num) (by norm_num))]

/-- A concrete session for the single-qubit pass: two qubits, depth 1, identity
structure, one `XI` observable of weight `4000`, `eta = 2 log 2`, budget 1. -/
noncomputable def cfgC4 : DSSConfig :=
  ⟨2, 1, 2 * Real.log 2, 1, 1, [[1, 0]], [[true, false]], [4000]⟩

theorem c4_slot0 : single_qubit_slot_step cfgC4 0 [[0]] [0] ([0, 0, 0, 0], 1000) 0 =
    .ok ([1, 0, 0, 0], 1000) := by
  refine slot_step_no_commit cfgC4 0 [[0]] [0] [0, 0, 0, 0] 1000 0
    (fun _ => 4000 * (1 - (1 / 2) * ((1 / 3 : ℚ) : ℝ))) ?_ ?_
  · intro g h1g h6g
    interval_cases g
    · exact c4_cost_fact 1 0 0 0 (1 / 3) (by norm_num [vdotQ, tsQ, Finset.sum_range_succ,
        pauli_state, get_single_qubit_gate_dict, gate1, random_singleq_gate, mk2,
        List.getD, Fr.toRat_zero, Fr.toRat_one, fr13_toRat])
    · exact c4_cost_fact 2 0 0 0 (1 / 3) (by norm_num [vdotQ, tsQ, Finset.sum_range_succ,
        pauli_state, get_single_qubit_gate_dict, gate2, random_singleq_gate, mk2,
        List.getD, Fr.toRat_zero, Fr.toRat_one, fr13_toRat])
    · exact c4_cost_fact 3 0 0 0 (1 / 3) (by norm_num [vdotQ, tsQ, Finset.sum_range_succ,
        pauli_state, get_single_qubit_gate_dict, gate3, random_singleq_gate, mk2,
        List.getD, Fr.toRat_zero, Fr.toRat_one, fr13_toRat])
    · exact c4_cost_fact 4 0 0 0 (1 / 3) (by norm_num [vdotQ, tsQ, Finset.sum_range_succ,
        pauli_state, get_single_qubit_gate_dict, gate4, random_singleq_gate, mk2,
        List.getD, Fr.toRat_zero, Fr.toRat_one, fr13_toRat])
    · exact c4_cost_fact 5 0 0 0 (1 / 3) (by norm_num [vdotQ, tsQ, Finset.sum_range_succ,
        pauli_state, get_single_qubit_gate_dict, gate5, random_singleq_gate, mk2,
        List.getD, Fr.toRat_zero, Fr.toRat_one, fr13_toRat])
    · exact c4_cost_fact 6 0 0 0 (1 / 3) (by norm_num [vdotQ, tsQ, Finset.sum_range_succ,
        pauli_state, get_single_qubit_gate_dict, gate6, random_singleq_gate, mk2,
        List.getD, Fr.toRat_zero, Fr.toRat_one, fr13_toRat])
  · intro g _ _
    push_cast
    norm_num

theorem c4_slot1 : single_qubit_slot_step cfgC4 0 [[0]] [0] ([1, 0, 0, 0], 1000) 1 =
    .ok ([1, 1, 0, 0], 1000) := by
  refine slot_step_no_commit cfgC4 0 [[0]] [0] [1, 0, 0, 0] 1000 1
    (fun _ => 4000 * (1 - (1 / 2) * ((1 / 3 : ℚ) : ℝ))) ?_ ?_
  · intro g h1g h6g
    interval_cases g
    · exact c4_cost_fact 1 1 0 0 (1 / 3) (by norm_num [vdotQ, tsQ, Finset.sum_range_succ,
        pauli_state, get_single_qubit_gate_dict, gate1, random_singleq_gate, mk2,
        List.getD, Fr.toRat_zero, Fr.toRat_one, fr13_toRat])
    · exact c4_cost_fact 1 2 0 0 (1 / 3) (by norm_num [vdotQ, tsQ, Finset.sum_range_succ,
        pauli_state, get_single_qubit_gate_dict, gate1, gate2, random_singleq_gate, mk2,
        List.getD, Fr.toRat_zero, Fr.toRat_one, fr13_toRat])
    · exact c4_cost_fact 1 3 0 0 (1 / 3) (by norm_num [vdotQ, tsQ, Finset.sum_range_succ,
        pauli_state, get_single_qubit_gate_dict, gate1, gate3, random_singleq_gate, mk2,
        List.getD, Fr.toRat_zero, Fr.toRat_one, fr13_toRat])
    · exact c4_cost_fact 1 4 0 0 (1 / 3) (by norm_num [vdotQ, tsQ, Finset.sum_range_succ,
        pauli_state, get_single_qubit_gate_dict, gate1, gate4, random_singleq_gate, mk2,
        List.getD, Fr.toRat_zero, Fr.toRat_one, fr13_toRat])
    · exact c4_cost_fact 1 5 0 0 (1 / 3) (by norm_num [vdotQ, tsQ, Finset.sum_range_succ,
        pauli_state, get_single_qubit_gate_dict, gate1, gate5, random_singleq_gate, mk2,
        List.getD, Fr.toRat_zero, Fr.toRat_one, fr13_toRat])
    · exact c4_cost_fact 1 6 0 0 (1 / 3) (by norm_num [vdotQ, tsQ, Finset.sum_range_succ,
        pauli_state, get_single_qubit_gate_dict, gate1, gate6, random_singleq_gate, mk2,
        List.getD, Fr.toRat_zero, Fr.toRat_one, fr13_toRat])
  · intro g _ _
    push_cast
    norm_num

theorem c4_slot2 : single_qubit_slot_step cfgC4 0 [[0]] [0] ([1, 1, 0, 0], 1000) 2 =
    .ok ([1, 1, 1, 0], 1000) := by
  refine slot_step_no_commit cfgC4 0 [[0]] [0] [1, 1, 0, 0] 1000 2
    (fun g => 4000 * (1 - (1 / 2) *
      ((([0, 0, 0, 1, 0, 1] : List ℚ).getD (g - 1) 0 : ℚ) : ℝ))) ?_ ?_
  · intro g h1g h6g
    interval_cases g
    · exact c4_cost_fact 1 1 1 0 0 (by norm_num [vdotQ, tsQ, Finset.sum_range_succ,
        pauli_state, get_single_qubit_gate_dict, gate1, random_singleq_gate, mk2,
        List.getD, Fr.toRat_zero, Fr.toRat_one, fr13_toRat])
    · exact c4_cost_fact 1 1 2 0 0 (by norm_num [vdotQ, tsQ, Finset.sum_range_succ,
        pauli_state, get_single_qubit_gate_dict, gate1, gate2, random_singleq_gate, mk2,
        List.getD, Fr.toRat_zero, Fr.toRat_one, fr13_toRat])
    · exact c4_cost_fact 1 1 3 0 0 (by norm_num [vdotQ, tsQ, Finset.sum_range_succ,
        pauli_state, get_single_qubit_gate_dict, gate1, gate3, random_singleq_gate, mk2,
        List.getD, Fr.toRat_zero, Fr.toRat_one, fr13_toRat])
    · exact c4_cost_fact 1 1 4 0 1 (by norm_num [vdotQ, tsQ, Finset.sum_range_succ,
        pauli_state, get_single_qubit_gate_dict, gate1, gate4, random_singleq_gate, mk2,
        List.getD, Fr.toRat_zero, Fr.toRat_one, fr13_toRat])
    · exact c4_cost_fact 1 1 5 0 0 (by norm_num [vdotQ, tsQ, Finset.sum_range_succ,
        pauli_state, get_single_qubit_gate_dict, gate1, gate5, random_singleq_gate, mk2,
        List.getD, Fr.toRat_zero, Fr.toRat_one, fr13_toRat])
    · exact c4_cost_fact 1 1 6 0 1 (by norm_num [vdotQ, tsQ, Finset.sum_range_succ,
        pauli_state, get_single_qubit_gate_dict, gate1, gate6, random_singleq_gate, mk2,
        List.getD, Fr.toRat_zero, Fr.toRat_one, fr13_toRat])
  · intro g h1g h6g
    interval_cases g <;> push_cast <;> norm_num

theorem c4_slot3 : single_qubit_slot_step cfgC4 0 [[0]] [0] ([1, 1, 1, 0], 1000) 3 =
    .ok ([1, 1, 1, 1], 1000) := by
  refine slot_step_no_commit cfgC4 0 [[0]] [0] [1, 1, 1, 0] 1000 3
    (fun _ => 4000 * (1 - (1 / 2) * ((0 : ℚ) : ℝ))) ?_ ?_
  · intro g h1g h6g
    interval_cases g
    · exact c4_cost_fact 1 1 1 1 0 (by norm_num [vdotQ, tsQ, Finset.sum_range_succ,
        pauli_state, get_single_qubit_gate_dict, gate1, random_singleq_gate, mk2,
        List.getD, Fr.toRat_zero, Fr.toRat_one, fr13_toRat])
    · exact c4_cost_fact 1 1 1 2 0 (by norm_num [vdotQ, tsQ, Finset.sum_range_succ,
        pauli_state, get_single_qubit_gate_dict, gate1, gate2, random_singleq_gate, mk2,
        List.getD, Fr.toRat_zero, Fr.toRat_one, fr13_toRat])
    · exact c4_cost_fact 1 1 1 3 0 (by norm_num [vdotQ, tsQ, Finset.sum_range_succ,
        pauli_state, get_single_qubit_gate_dict, gate1, gate3, random_singleq_gate, mk2,
        List.getD, Fr.toRat_zero, Fr.toRat_one, fr13_toRat])
    · exact c4_cost_fact 1 1 1 4 0 (by norm_num [vdotQ, tsQ, Finset.sum_range_succ,
        pauli_state, get_single_qubit_gate_dict, gate1, gate4, random_singleq_gate, mk2,
        List.getD, Fr.toRat_zero, Fr.toRat_one, fr13_toRat])
    · exact c4_cost_fact 1 1 1 5 0 (by norm_num [vdotQ, tsQ, Finset.sum_range_succ,
        pauli_state, get_single_qubit_gate_dict, gate1, gate5, random_singleq_gate, mk2,
        List.getD, Fr.toRat_zero, Fr.toRat_one, fr13_toRat])
    · exact c4_cost_fact 1 1 1 6 0 (by norm_num [vdotQ, tsQ, Finset.sum_range_succ,
        pauli_state, get_single_qubit_gate_dict, gate1, gate6, random_singleq_gate, mk2,
        List.getD, Fr.toRat_zero, Fr.toRat_one, fr13_toRat])
  · intro g _ _
    push_cast
    norm_num

theorem c4_run : single_qubit_derandomization cfgC4 0 [[0]] [0] = .ok [1, 1, 1, 1] := by
  unfold single_qubit_derandomization
  simp only [show List.range (cfgC4.N * (cfgC4.depth + 1)) = [0, 1, 2, 3] from rfl,
    show List.replicate (cfgC4.N * (cfgC4.depth + 1)) 0 = [0, 0, 0, 0] from rfl,
    List.foldlM, c4_slot0, c4_slot1, c4_slot2, c4_slot3,
    Bind.bind, Except.bind, pure, Except.pure]

/-- An invariant preserved by every successful step of `foldlM` holds of the
result. -/
theorem foldlM_inv_mem {σ α : Type} (F : σ → α → Except String σ) (P : σ → Prop) :
    ∀ (xs : List α), (∀ s x s', x ∈ xs → P s → F s x = .ok s' → P s') →
      ∀ (s₀ res : σ), P s₀ → xs.foldlM F s₀ = .ok res → P res := by
  intro xs
  induction xs with
  | nil =>
    intro _ s₀ res hP h
    simp only [List.foldlM, pure, Except.pure] at h
    cases h
    exact hP
  | cons x xs ih =>
    intro hstep s₀ res hP h
    simp only [List.foldlM] at h
    cases hF : F s₀ x with
    | error e => rw [hF] at h; simp [Bind.bind, Except.bind] at h
    | ok mid =>
      rw [hF] at h
      simp only [Bind.bind, Except.bind] at h
      exact ih (fun s x' s' hx' => hstep s x' s' (List.mem_cons_of_mem _ hx'))
        mid res (hstep s₀ x mid (List.mem_cons_self _ _) hP hF) h

theorem getD_set_self {α : Type} (l : List α) (i : ℕ) (v d : α) (h : i < l.length) :
    (l.set i v).getD i d = v := by
  induction l generalizing i with
  | nil => simp at h
  | cons a t ih =>
    cases i with
    | zero => rfl
    | succ n =>
      show (t.set n v).getD n d = v
      exact ih n (by simpa using h)

theorem getD_set_ne {α : Type} (l : List α) (i j : ℕ) (v d : α) (h : i ≠ j) :
    (l.set i v).getD j d = l.getD j d := by
  induction l generalizing i j with
  | nil => rfl
  | cons a t ih =>
    cases i with
    | zero =>
      cases j with
      | zero => exact absurd rfl h
      | succ n => rfl
    | succ n =>
      cases j with
      | zero => rfl
      | succ p =>
        show (t.set n v).getD p d = t.getD p d
        exact ih n p (by omega)

/-- Each slot step of the single-qubit pass only writes a symbol in `{1, …, 6}`
into its own slot. -/
theorem single_qubit_slot_step_shape (dss : DSSConfig) (m : ℕ) (best : List (List ℕ))
    (hits : List ℚ) (st : List ℕ × ℝ) (box : ℕ) (st' : List ℕ × ℝ)
    (h : single_qubit_slot_step dss m best hits st box = .ok st') :
    ∃ v, 1 ≤ v ∧ v ≤ 6 ∧ st'.1 = st.1.set box v := by
  unfold single_qubit_slot_step at h
  refine foldlM_inv_mem _ (fun bc => ∃ v, 1 ≤ v ∧ v ≤ 6 ∧ bc.1 = st.1.set box v)
    [1, 2, 3, 4, 5, 6] ?_ _ _ ⟨1, by norm_num, by norm_num, rfl⟩ h
  rintro bc g bc' hg ⟨v, h1v, h6v, hbc⟩ hF
  have hgb : 1 ≤ g ∧ g ≤ 6 := by simp at hg; omega
  cases hcost : confidence_cost_function_single_qubit dss.N dss.depth dss.eta
      dss.max_num_measurements m (bc.1.set box g) best dss.pauli_strings_to_learn
      dss.pauli_masks hits dss.weights dss.measurements_per_observable with
  | error e => simp [hcost, Bind.bind, Except.bind] at hF
  | ok cval =>
    simp only [hcost, Bind.bind, Except.bind, pure, Except.pure] at hF
    by_cases hlt : cval < bc.2
    · rw [if_pos hlt] at hF
      cases hF
      exact ⟨g, hgb.1, hgb.2, by rw [hbc, List.set_set]⟩
    · rw [if_neg hlt] at hF
      cases hF
      exact ⟨v, h1v, h6v, hbc⟩

/-- Positional invariant of the slot loop: every already-visited slot holds a
symbol in `{1, …, 6}`. -/
theorem sq_fold_inv (dss : DSSConfig) (m : ℕ) (best : List (List ℕ)) (hits : List ℚ) :
    ∀ (k s : ℕ) (st res : List ℕ × ℝ),
      (List.range' s k).foldlM
        (fun st' box => single_qubit_slot_step dss m best hits st' box) st = .ok res →
      (∀ i, i < s → i < st.1.length → 1 ≤ st.1.getD i 0 ∧ st.1.getD i 0 ≤ 6) →
      res.1.length = st.1.length ∧
        ∀ i, i < s + k → i < st.1.length → 1 ≤ res.1.getD i 0 ∧ res.1.getD i 0 ≤ 6 := by
  intro k
  induction k with
  | zero =>
    intro s st res h hpre
    simp only [List.range', List.foldlM, pure, Except.pure] at h
    cases h
    exact ⟨rfl, fun i hi hil => hpre i (by omega) hil⟩
  | succ k ih =>
    intro s st res h hpre
    rw [List.range'_succ] at h
    simp only [List.foldlM] at h
    cases hstep : single_qubit_slot_step dss m best hits st s with
    | error e => rw [hstep] at h; simp [Bind.bind, Except.bind] at h
    | ok st1 =>
      rw [hstep] at h
      simp only [Bind.bind, Except.bind] at h
      obtain ⟨v, h1v, h6v, hset⟩ := single_qubit_slot_step_shape dss m best hits st s st1 hstep
      have hlen1 : st1.1.length = st.1.length := by rw [hset, List.length_set]
      have hpre1 : ∀ i, i < s + 1 → i < st1.1.length →
          1 ≤ st1.1.getD i 0 ∧ st1.1.getD i 0 ≤ 6 := by
        intro i hi hil
        rw [hlen1] at hil
        rw [hset]
        rcases Nat.lt_or_ge i s with hlt | hge
        · rw [getD_set_ne _ _ _ _ _ (by omega)]
          exact hpre i hlt hil
        · have his : i = s := by omega
          subst his
          rw [getD_set_self _ _ _ _ hil]
          exact ⟨h1v, h6v⟩
      obtain ⟨hlr, hpost⟩ := ih (s + 1) st1 res h hpre1
      exact ⟨hlr.trans hlen1, fun i hi hil =>
        hpost i (by omega) (by rw [hlen1]; exact hil)⟩

-- ------------------------- claim theorems ------------------------- --

/-- C8: both cost functions compute, with `nu = 1 - exp(-eta/2)`, the sum over
observables still below their target hit count of
`weight[l] * exp(-eta/2*hits[l]) * (1 - nu*w_part[l]) * (1 - nu*w_random[l])^(T-m-1)`
where `w_part` is the candidate circuit's weight vector, `w_random` the weight
vector of the fully-random circuit, and the exponent `T - m - 1` counts the
remaining measurements; observables already at target contribute exactly zero. -/
theorem C8_cost_functions_formula (N depth : ℕ) (eta : ℝ) (T : ℤ) (m : ℕ)
    (structure_config : List (List ℕ)) (column_test : List ℕ)
    (gate_config : List (List ℕ)) (pauli_strings_to_learn : List (List ℕ))
    (pauli_masks : List (List Bool)) (count_hits weight : List ℚ) (mpo : ℕ)
    (wr ws wq : List Fr)
    (hwr : pauli_masks.mapM (fun mk => calculate_weight_structure N mk depth
      (List.replicate depth (List.replicate (N / 2) 3))) = .ok wr)
    (hws : pauli_masks.mapM (fun mk => calculate_weight_structure N mk depth
      structure_config) = .ok ws)
    (hwq : (List.range pauli_masks.length).mapM (fun l => calculate_weight_single_qubit N
      (pauli_strings_to_learn.getD l []) column_test gate_config) = .ok wq) :
    confidence_cost_function_structure N depth eta T m structure_config pauli_masks
        count_hits weight mpo =
      .ok (cost_formula_spec eta T m ws wr count_hits weight mpo pauli_masks.length) ∧
    confidence_cost_function_single_qubit N depth eta T m column_test gate_config
        pauli_strings_to_learn pauli_masks count_hits weight mpo =
      .ok (cost_formula_spec eta T m wq wr count_hits weight mpo pauli_masks.length) :=
  ⟨confidence_structure_eq_spec N depth eta T m structure_config pauli_masks count_hits
      weight mpo wr ws hwr hws,
    confidence_single_qubit_eq_spec N depth eta T m column_test gate_config
      pauli_strings_to_learn pauli_masks count_hits weight mpo wr wq hwr hwq⟩

/-- Witness for C8 at a concrete configuration. -/
theorem C8_cost_functions_formula_witness :
    confidence_cost_function_structure 2 1 1 1 0 [[0]] [] [0] [1] 1 =
      .ok (cost_formula_spec 1 1 0 [] [] [0] [1] 1 0) ∧
    confidence_cost_function_single_qubit 2 1 1 1 0 [1, 1, 6, 1] [[0]] [[1, 0]]
        [] [0] [1] 1 =
      .ok (cost_formula_spec 1 1 0 [] [] [0] [1] 1 0) :=
  C8_cost_functions_formula 2 1 1 1 0 [[0]] [1, 1, 6, 1] [[0]] [[1, 0]]
    [] [0] [1] 1 [] [] [] rfl rfl rfl

/-- C3 (counterexample): in a concrete session the structure pass returns the
all-identity structure `[[0]]` even though CNOT (`[[1]]`) has strictly lower
structure cost than identity (`[[0]]`): no candidate beats the running best
`100000` inherited by the first cell, so the preset `0` is kept instead of the
cost minimizer. -/
theorem C3_counterexample :
    structure_derandomization cfgC3 0 [0] = .ok [[0]] ∧
    confidence_cost_function_structure 2 1 (2 * Real.log 2) 1 0 [[1]]
      [[true, true]] [0] [1000000] 1 = .ok (1000000 * (145 / 162)) ∧
    confidence_cost_function_structure 2 1 (2 * Real.log 2) 1 0 [[0]]
      [[true, true]] [0] [1000000] 1 = .ok (1000000 * (17 / 18)) ∧
    (1000000 * (145 / 162) : ℝ) < 1000000 * (17 / 18) :=
  ⟨c3_structure_run, c3_cost_1, c3_cost_0, by norm_num⟩

/-- C3 (amended): each cell of the structure pass presets the cell to `0` and
then commits the first cost-minimizing gate among `{0, 1, 2}` only when that
minimum strictly improves the running best cost carried over from the previous
cells (initially `100000`); otherwise the cell stays `0` and the running best
is unchanged. -/
theorem C3_structure_cell_commit_rule (dss_data : DSSConfig) (m : ℕ)
    (count_hits : List ℚ) (st : List (List ℕ) × ℝ) (l g : ℕ) (c0 c1 c2 : ℝ)
    (h0 : confidence_cost_function_structure dss_data.N dss_data.depth dss_data.eta
      dss_data.max_num_measurements m (set2 st.1 l g 0) dss_data.pauli_masks count_hits
      dss_data.weights dss_data.measurements_per_observable = .ok c0)
    (h1 : confidence_cost_function_structure dss_data.N dss_data.depth dss_data.eta
      dss_data.max_num_measurements m (set2 st.1 l g 1) dss_data.pauli_masks count_hits
      dss_data.weights dss_data.measurements_per_observable = .ok c1)
    (h2 : confidence_cost_function_structure dss_data.N dss_data.depth dss_data.eta
      dss_data.max_num_measurements m (set2 st.1 l g 2) dss_data.pauli_masks count_hits
      dss_data.weights dss_data.measurements_per_observable = .ok c2) :
    structure_cell_step dss_data m count_hits st l g =
      .ok (if min c0 (min c1 c2) < st.2 then
          (set2 st.1 l g (if c0 ≤ c1 ∧ c0 ≤ c2 then 0 else if c1 ≤ c2 then 1 else 2),
            min c0 (min c1 c2))
        else (set2 st.1 l g 0, st.2)) :=
  structure_cell_step_spec dss_data m count_hits st l g c0 c1 c2 h0 h1 h2

/-- Witness for the amended C3 at the concrete session of the counterexample. -/
theorem C3_structure_cell_commit_rule_witness :
    structure_cell_step cfgC3 0 [0] ([[3]], 100000) 0 0 = .ok ([[0]], 100000) := by
  have h := C3_structure_cell_commit_rule cfgC3 0 [0] ([[3]], 100000) 0 0
    (1000000 * (17 / 18)) (1000000 * (145 / 162)) (1000000 * (17 / 18))
    c3_cost_0 c3_cost_1 c3_cost_2
  have hn : ¬ (min (1000000 * (17 / 18) : ℝ)
      (min (1000000 * (145 / 162)) (1000000 * (17 / 18))) < 100000) := by
    rw [not_lt, le_min_iff, le_min_iff]
    norm_num
  dsimp only at h
  rw [if_neg hn] at h
  exact h

/-- C4 (counterexample): in a concrete session the single-qubit pass returns
`[1,1,1,1]` although, while slot 2 was being derandomized, the candidate symbol
`4` (config `[1,1,4,0]`, cost `2000`) was strictly cheaper than the committed
preset symbol `1` (config `[1,1,1,0]`, cost `4000`): no candidate beats the
running best cost `1000`, so the preset survives instead of the minimizer (and
symbol `0` is never even evaluated). -/
theorem C4_counterexample :
    single_qubit_derandomization cfgC4 0 [[0]] [0] = .ok [1, 1, 1, 1] ∧
    confidence_cost_function_single_qubit 2 1 (2 * Real.log 2) 1 0 [1, 1, 4, 0] [[0]]
      [[1, 0]] [[true, false]] [0] [4000] 1 = .ok 2000 ∧
    confidence_cost_function_single_qubit 2 1 (2 * Real.log 2) 1 0 [1, 1, 1, 0] [[0]]
      [[1, 0]] [[true, false]] [0] [4000] 1 = .ok 4000 ∧
    (2000 : ℝ) < 4000 := by
  refine ⟨c4_run, ?_, ?_, by norm_num⟩
  · rw [c4_cost_fact 1 1 4 0 1 (by norm_num [vdotQ, tsQ, Finset.sum_range_succ,
      pauli_state, get_single_qubit_gate_dict, gate1, gate4, random_singleq_gate, mk2,
      List.getD, Fr.toRat_zero, Fr.toRat_one, fr13_toRat])]
    rw [show ((4000 : ℝ) * (1 - (1 / 2) * ((1 : ℚ) : ℝ))) = 2000 by push_cast; norm_num]
  · rw [c4_cost_fact 1 1 1 0 0 (by norm_num [vdotQ, tsQ, Finset.sum_range_succ,
      pauli_state, get_single_qubit_gate_dict, gate1, random_singleq_gate, mk2,
      List.getD, Fr.toRat_zero, Fr.toRat_one, fr13_toRat])]
    rw [show ((4000 : ℝ) * (1 - (1 / 2) * ((0 : ℚ) : ℝ))) = 4000 by push_cast; norm_num]

/-- C4 (amended): the single-qubit pass presets each slot to the identity symbol
`1` and only ever tries the symbols `1, …, 6` against the running best cost
(initially `1000`, carried across slots); consequently every slot of a
successfully returned configuration holds a symbol in `{1, …, 6}` — the random
symbol `0` is never evaluated as a candidate and can never be a final choice. -/
theorem C4_single_qubit_pass_symbols (dss : DSSConfig) (m : ℕ) (best : List (List ℕ))
    (hits : List ℚ) (c : List ℕ)
    (h : single_qubit_derandomization dss m best hits = .ok c) :
    c.length = dss.N * (dss.depth + 1) ∧
      ∀ i < dss.N * (dss.depth + 1), 1 ≤ c.getD i 0 ∧ c.getD i 0 ≤ 6 := by
  unfold single_qubit_derandomization at h
  dsimp only at h
  cases hr : (List.range (dss.N * (dss.depth + 1))).foldlM
      (fun st box => single_qubit_slot_step dss m best hits st box)
      (List.replicate (dss.N * (dss.depth + 1)) 0, (1000 : ℝ)) with
  | error e => rw [hr] at h; simp [Bind.bind, Except.bind] at h
  | ok res =>
    rw [hr] at h
    simp only [Bind.bind, Except.bind, pure, Except.pure] at h
    cases h
    rw [List.range_eq_range'] at hr
    obtain ⟨hlen, hgood⟩ := sq_fold_inv dss m best hits (dss.N * (dss.depth + 1)) 0
      (List.replicate (dss.N * (dss.depth + 1)) 0, 1000) res hr (by intro i hi; omega)
    refine ⟨by rw [hlen]; exact List.length_replicate _ _, fun i hi => ?_⟩
    exact hgood i (by omega) (by rw [List.length_replicate]; exact hi)

/-- Witness for the amended C4 at the concrete session of the counterexample. -/
theorem C4_single_qubit_pass_symbols_witness :
    ([1, 1, 1, 1] : List ℕ).length = cfgC4.N * (cfgC4.depth + 1) ∧
      ∀ i < cfgC4.N * (cfgC4.depth + 1),
        1 ≤ ([1, 1, 1, 1] : List ℕ).getD i 0 ∧ ([1, 1, 1, 1] : List ℕ).getD i 0 ≤ 6 :=
  C4_single_qubit_pass_symbols cfgC4 0 [[0]] [0] [1, 1, 1, 1] c4_run

/-- C9 (counterexample): with `bond_dim_factor = 3` on an ordinary input (standard
4-dimensional gate tensors), `dressed_gates_contract` fails with the reshape
error raised after the initial-layer contraction, not with the
unsupported-bond-dimension error. -/
theorem C9_counterexample :
    dressed_gates_contract 2 1 (pauli_state [0, 0]) [[identity_gate]] 3 =
      .error "cannot reshape" ∧
    dressed_gates_contract 2 1 (pauli_state [0, 0]) [[identity_gate]] 3 ≠
      .error "Unsupported bond dimension factor" := by
  constructor
  · decide
  · decide

/-- C9 (amended): for every `bond_dim_factor` outside `{2, 4}`,
`dressed_gates_contract` fails on every input — but only after the initial-layer
contraction and reshaping, and with the unsupported-bond-dimension error only
when that reshape succeeds. -/
theorem C9_unsupported_bond_always_fails (N depth : ℕ) (state : NDArr)
    (gate_config_full : List (List NDArr)) (b : ℕ) (hb2 : b ≠ 2) (hb4 : b ≠ 4) :
    ∃ e, dressed_gates_contract N depth state gate_config_full b = .error e := by
  unfold dressed_gates_contract
  cases h : reshape_for_temporal_contraction
      (apply_initial_gates (pair_input_states state N (depth % 2))
        (gate_config_full.getLastD []) (depth % 2)) b (depth % 2) with
  | error e =>
    exact ⟨e, by simp only [List.getLastD_eq_getLast?] at h; simp [h, Bind.bind, Except.bind]⟩
  | ok c =>
    refine ⟨"Unsupported bond dimension factor", ?_⟩
    simp only [List.getLastD_eq_getLast?] at h
    simp [h, get_measurement_tensor, hb2, hb4, Bind.bind, Except.bind]

/-- Witness for the amended C9 at a concrete input. -/
theorem C9_unsupported_bond_always_fails_witness :
    (3 ≠ 2 ∧ 3 ≠ 4) ∧
    ∃ e, dressed_gates_contract 4 2 (pauli_state [0, 0, 0, 0])
      [[identity_gate, cnot_gate], [swap_gate, u2_gate]] 3 = .error e :=
  ⟨by decide, C9_unsupported_bond_always_fails 4 2 (pauli_state [0, 0, 0, 0])
    [[identity_gate, cnot_gate], [swap_gate, u2_gate]] 3 (by decide) (by decide)⟩

end DSS
